import Mathlib

/-!
Shallow embedding of the mobulator SM83 CPU core (Rust) in Lean 4.

Machine integers are modelled as `Nat` with explicit masking (`% 256`,
`% 65536`, `&&&`) at the points where the Rust code's `u8`/`u16` types
truncate or wrap.  Checked (non-`wrapping_*`) `u16` arithmetic that can
overflow is modelled as a fallible step (an overflow aborts with
`EmuErr.panicked`, matching the debug-build panic of Rust's `+`/`+=`/`-=`),
while `wrapping_add`/`wrapping_sub` are modelled as total modular
arithmetic.  Fallible Rust functions (`anyhow::Result`) are modelled with
`Except EmuErr`.
-/

set_option maxHeartbeats 1600000
set_option maxRecDepth 65536

/-- Memory size: `MEM_SIZE = 0xFFFF + 1` (src/memory.rs). -/
def MEM_SIZE : Nat := 0xFFFF + 1

/-- Address of the interrupt-enable register (src/memory.rs). -/
def INTERRUPT_ENABLE : Nat := 0xFFFF

/-- Address of the interrupt-flag register (src/memory.rs). -/
def INTERRUPT_FLAG : Nat := 0xFF0F

/-! ### src/utils.rs -/

/-- `calc_nth_bit_power(bit) = 1 << bit` on `u16` (src/utils.rs). -/
def calcNthBitPower (bit : Nat) : Nat := (1 <<< bit) % 65536

/-- `is_bit_set_u16(number, bit)` (src/utils.rs). -/
def isBitSetU16 (number bit : Nat) : Bool := number &&& calcNthBitPower bit != 0

/-- Modelled from the spec: `is_bit_set_u8` is imported by
src/byte_instruction.rs (for the `q` field, "bit 3 of byte", spec §4.1) but is
absent from the copy of src/utils.rs; it is the `u8` analogue of
`is_bit_set_u16`. -/
def isBitSetU8 (number bit : Nat) : Bool := number &&& ((1 <<< bit) % 256) != 0

/-- `half_carry_add_u8(a, b, carry)` (src/utils.rs). -/
def halfCarryAddU8 (a b : Nat) (carry : Bool) : Bool :=
  let c := if carry then 1 else 0
  (a &&& 0x0F) + (b &&& 0x0F) + c > 0x0F

/-- `half_carry_sub_u8(a, b, carry)`: two `u8::wrapping_sub`s then `> 0x0F`
(src/utils.rs). -/
def halfCarrySubU8 (a b : Nat) (carry : Bool) : Bool :=
  let c := if carry then 1 else 0
  (((a &&& 0x0F) + 256 - (b &&& 0x0F)) % 256 + 256 - c) % 256 > 0x0F

/-- `half_carry_add_u16(a, b)` (src/utils.rs). -/
def halfCarryAddU16 (a b : Nat) : Bool :=
  (a &&& 0x0FFF) + (b &&& 0x0FFF) > 0x0FFF

/-- `carry_u16_i8(a, b)`: `(a & 0x00FF) + (b as u16 & 0x00FF) > 0x00FF`; the
second operand is passed here as the raw (unsigned) byte, which equals the
low byte of the sign-extended `b as u16` (src/utils.rs). -/
def carryU16I8 (a braw : Nat) : Bool :=
  (a &&& 0x00FF) + (braw &&& 0x00FF) > 0x00FF

/-- `to_lowest_bit_set(a) = a & a.wrapping_neg()` on `u8` (src/utils.rs). -/
def toLowestBitSet (a : Nat) : Nat := a &&& ((256 - a % 256) % 256)

/-- `BitExt::set_bit` for `u8`: `!calc_nth_bit_power(bit) as u8` is the
truncated complement `(65535 - calc_nth_bit_power bit) % 256` (src/utils.rs). -/
def u8SetBit (n bit : Nat) (value : Bool) : Nat :=
  if value then n ||| (calcNthBitPower bit % 256)
  else n &&& ((65535 - calcNthBitPower bit) % 256)

/-- `BitExt::set_bit` for `u16` (src/utils.rs). -/
def u16SetBit (n bit : Nat) (value : Bool) : Nat :=
  if value then n ||| calcNthBitPower bit
  else n &&& (65535 - calcNthBitPower bit)

/-- `RegisterU16Ext::set_high`: keep the low byte, install `value` as the
high byte (src/utils.rs). -/
def setHigh (r value : Nat) : Nat := (r &&& 0x00FF) ||| ((value % 256) <<< 8)

/-- `RegisterU16Ext::set_low` (src/utils.rs). -/
def setLow (r value : Nat) : Nat := (r &&& 0xFF00) ||| (value % 256)

/-- `RegisterU16Ext::high_u8`: the big-endian high byte of a `u16`
(src/utils.rs). -/
def highU8 (r : Nat) : Nat := r / 256 % 256

/-- `u16::wrapping_add`. -/
def wadd16 (a b : Nat) : Nat := (a + b) % 65536

/-- `u16::wrapping_sub`. -/
def wsub16 (a b : Nat) : Nat := (a + (65536 - b % 65536)) % 65536

/-- Low byte of the sign extension of a raw byte to `u16`
(`i16::from(byte as i8) as u16`). -/
def signExt8to16 (r : Nat) : Nat := if r % 256 < 128 then r % 256 else r % 256 + 0xFF00

/-- `u16::wrapping_add_signed` with an `i8` displacement given as its raw
byte. -/
def waddSigned16 (a braw : Nat) : Nat := (a + signExt8to16 braw) % 65536

/-! ### src/registers.rs -/

/-- The register file (src/registers.rs): four 16-bit pairs plus SP and PC.
The low byte of `af` is the flags register F. -/
structure Registers where
  af : Nat
  bc : Nat
  de : Nat
  hl : Nat
  sp : Nat
  pc : Nat
deriving Repr, DecidableEq

/-- `Registers::default()`: all zero. -/
def Registers.default : Registers := ⟨0, 0, 0, 0, 0, 0⟩

def Registers.a (r : Registers) : Nat := highU8 r.af

def Registers.setA (r : Registers) (val : Nat) : Registers :=
  { r with af := setHigh r.af val }

def Registers.zFlg (r : Registers) : Bool := isBitSetU16 r.af 7
def Registers.nFlg (r : Registers) : Bool := isBitSetU16 r.af 6
def Registers.hFlg (r : Registers) : Bool := isBitSetU16 r.af 5
def Registers.cFlg (r : Registers) : Bool := isBitSetU16 r.af 4

def Registers.b (r : Registers) : Nat := highU8 r.bc
def Registers.c (r : Registers) : Nat := r.bc % 256
def Registers.d (r : Registers) : Nat := highU8 r.de
def Registers.e (r : Registers) : Nat := r.de % 256
def Registers.h (r : Registers) : Nat := highU8 r.hl
def Registers.l (r : Registers) : Nat := r.hl % 256

/-- Modelled from the spec: the flag setters `set_z_flg`/`set_n_flg`/
`set_h_flg`/`set_c_flg` are called throughout src/cpu.rs but are missing from
the copy of src/registers.rs (which has only the getters); per spec §4.3 they
are "flag getters/setters operating on individual bits of F", the bits being
Z=7, N=6, H=5, C=4 as fixed by the getters present in the source. -/
def Registers.setZFlg (r : Registers) (v : Bool) : Registers :=
  { r with af := u16SetBit r.af 7 v }

/-- Modelled from the spec: see `Registers.setZFlg`. -/
def Registers.setNFlg (r : Registers) (v : Bool) : Registers :=
  { r with af := u16SetBit r.af 6 v }

/-- Modelled from the spec: see `Registers.setZFlg`. -/
def Registers.setHFlg (r : Registers) (v : Bool) : Registers :=
  { r with af := u16SetBit r.af 5 v }

/-- Modelled from the spec: see `Registers.setZFlg`. -/
def Registers.setCFlg (r : Registers) (v : Bool) : Registers :=
  { r with af := u16SetBit r.af 4 v }

/-- The `R8` operand selector.  The enum in the copy of src/registers.rs has
only the seven variants B,C,D,E,H,L,A; src/cpu.rs additionally matches on
`R8::HL` (the memory-at-HL pseudo-register of the repository's own encoding
table), so the variant is included here; `R8.tryFrom` below follows
src/registers.rs exactly and never produces it. -/
inductive R8 where
  | B | C | D | E | H | L | A | HL
deriving DecidableEq, Repr

/-- The `R16` register-pair selector (src/registers.rs). -/
inductive R16 where
  | BC | DE | HL | SP
deriving DecidableEq, Repr

/-- The `R16Mem` selector (src/registers.rs). -/
inductive R16Mem where
  | BC | DE | HLI | HLD
deriving DecidableEq, Repr

/-- The `R16Stk` selector (src/registers.rs). -/
inductive R16Stk where
  | BC | DE | HL | AF
deriving DecidableEq, Repr

/-- The `Cond` condition code (src/registers.rs). -/
inductive Cond where
  | NZ | Z | NC | C
deriving DecidableEq, Repr

/-- Error values of the embedding.  `panicked` models a Rust debug-build
arithmetic-overflow panic; the others model the `anyhow` errors of the
source, keeping which error occurred but not the formatted message text. -/
inductive EmuErr where
  | panicked
  | outOfBounds (addr : Nat)
  | noMoreMemory
  | unimplementedInstruction (b : Nat)
  | invalidR8 (v : Nat)
  | invalidR16 (v : Nat)
  | invalidR16Mem (v : Nat)
  | invalidR16Stk (v : Nat)
  | invalidCond (v : Nat)
  | invalidInterruptType (v : Nat)
  | ifOutOfBounds
deriving DecidableEq, Repr

/-- `R8::try_from(u8)` (src/registers.rs): cases 0,1,2,3,4,5,7 only — the
source has no arm for 6. -/
def R8.tryFrom (value : Nat) : Except EmuErr R8 :=
  if value = 0 then .ok .B
  else if value = 1 then .ok .C
  else if value = 2 then .ok .D
  else if value = 3 then .ok .E
  else if value = 4 then .ok .H
  else if value = 5 then .ok .L
  else if value = 7 then .ok .A
  else .error (.invalidR8 value)

/-- `R16::try_from(u8)` (src/registers.rs). -/
def R16.tryFrom (value : Nat) : Except EmuErr R16 :=
  if value = 0 then .ok .BC
  else if value = 1 then .ok .DE
  else if value = 2 then .ok .HL
  else if value = 3 then .ok .SP
  else .error (.invalidR16 value)

/-- `R16Mem::try_from(u8)` (src/registers.rs). -/
def R16Mem.tryFrom (value : Nat) : Except EmuErr R16Mem :=
  if value = 0 then .ok .BC
  else if value = 1 then .ok .DE
  else if value = 2 then .ok .HLI
  else if value = 3 then .ok .HLD
  else .error (.invalidR16Mem value)

/-- Modelled from the spec: `TryFrom<u8> for R16Stk` is required by
src/instruction.rs (`instruction.p().try_into()?` for push/pop) but missing
from the copy of src/registers.rs; per spec §3 the numeric encodings 0–3 map
bijectively (bc, de, hl, af per the repository's encoding table) and an
out-of-range encoding is a decode error. -/
def R16Stk.tryFrom (value : Nat) : Except EmuErr R16Stk :=
  if value = 0 then .ok .BC
  else if value = 1 then .ok .DE
  else if value = 2 then .ok .HL
  else if value = 3 then .ok .AF
  else .error (.invalidR16Stk value)

/-- Modelled from the spec: `TryFrom<u8> for Cond` is required by
src/instruction.rs (`instruction.cond().try_into()?`) but missing from the
copy of src/registers.rs; per spec §3 the encodings 0–3 map bijectively to
nz, z, nc, c and an out-of-range encoding is a decode error. -/
def Cond.tryFrom (value : Nat) : Except EmuErr Cond :=
  if value = 0 then .ok .NZ
  else if value = 1 then .ok .Z
  else if value = 2 then .ok .NC
  else if value = 3 then .ok .C
  else .error (.invalidCond value)

def Registers.setR16 (r : Registers) (r16 : R16) (val : Nat) : Registers :=
  match r16 with
  | .BC => { r with bc := val }
  | .DE => { r with de := val }
  | .HL => { r with hl := val }
  | .SP => { r with sp := val }

def Registers.getR16 (r : Registers) (r16 : R16) : Nat :=
  match r16 with
  | .BC => r.bc
  | .DE => r.de
  | .HL => r.hl
  | .SP => r.sp

/-- `Registers::get_r16mem` (src/registers.rs).  The HLI arm performs the
checked (non-wrapping) `self.hl += 1` of the source, which overflows — i.e.
panics in a debug build — when HL is 0xFFFF; HLD mirrors with `self.hl -= 1`
underflowing at 0. -/
def Registers.getR16mem (r : Registers) (r16 : R16Mem) :
    Except EmuErr (Nat × Registers) :=
  match r16 with
  | .BC => .ok (r.bc, r)
  | .DE => .ok (r.de, r)
  | .HLI =>
    if r.hl + 1 < 65536 then .ok (r.hl, { r with hl := r.hl + 1 })
    else .error .panicked
  | .HLD =>
    if r.hl = 0 then .error .panicked
    else .ok (r.hl, { r with hl := r.hl - 1 })

/-- Modelled from the spec: `Registers::get_r16stk` is called by src/cpu.rs
(PushR16stk) but missing from the copy of src/registers.rs; per spec §3,
`R16Stk` denotes the "4 pairs using AF instead of SP". -/
def Registers.getR16stk (r : Registers) (reg : R16Stk) : Nat :=
  match reg with
  | .BC => r.bc
  | .DE => r.de
  | .HL => r.hl
  | .AF => r.af

/-- Modelled from the spec: `Registers::set_r16stk` is called by src/cpu.rs
(PopR16stk) but missing from the copy of src/registers.rs; per spec §3 the
flag-nibble invariant requires every operation writing F to "explicitly clear
or set these four bits and never the low four", so the AF arm stores
`val & 0xFFF0`, keeping the low nibble of F zero. -/
def Registers.setR16stk (r : Registers) (reg : R16Stk) (val : Nat) : Registers :=
  match reg with
  | .BC => { r with bc := val }
  | .DE => { r with de := val }
  | .HL => { r with hl := val }
  | .AF => { r with af := val &&& 0xFFF0 }

/-! ### src/memory.rs -/

/-- The flat 64KB memory (src/memory.rs), as a function from address to
byte. -/
structure Memory where
  mem : Nat → Nat

/-- `Memory::default()`: all zero. -/
def Memory.default : Memory := ⟨fun _ => 0⟩

/-- `Memory::get_byte` (src/memory.rs): an in-range read returns the byte,
an out-of-range index yields the out-of-bounds error (unreachable for `u16`
addresses, but present in the source). -/
def Memory.getByte (m : Memory) (addr : Nat) : Except EmuErr Nat :=
  if addr < MEM_SIZE then .ok (m.mem addr) else .error (.outOfBounds addr)

/-- `Memory::set_byte` (src/memory.rs): infallible indexed store. -/
def Memory.setByte (m : Memory) (addr value : Nat) : Memory :=
  ⟨fun a => if a = addr then value else m.mem a⟩

/-- `Memory::set_u16` (src/memory.rs): writes the low byte at `addr` and the
high byte at `addr + 1`, where `addr + 1` is a checked `u16` addition that
overflows (debug-build panic) when `addr = 0xFFFF`.  The low-byte store
precedes the failing index computation in the source; the post-panic partial
state is unobservable and is dropped here. -/
def Memory.setU16 (m : Memory) (addr value : Nat) : Except EmuErr Memory :=
  let low := value % 256
  let high := value / 256 % 256
  let m1 := m.setByte addr low
  if addr + 1 < 65536 then .ok (m1.setByte (addr + 1) high)
  else .error .panicked

/-- The interrupt types (src/memory.rs). -/
inductive InterruptType where
  | Joypad | Serial | Timer | LCD | VBlank
deriving DecidableEq, Repr

/-- `InterruptType::bit` (src/memory.rs). -/
def InterruptType.bit : InterruptType → Nat
  | .Joypad => 4
  | .Serial => 3
  | .Timer => 2
  | .LCD => 1
  | .VBlank => 0

/-- `InterruptType::addr` (src/memory.rs). -/
def InterruptType.addr : InterruptType → Nat
  | .Joypad => 0x60
  | .Serial => 0x56
  | .Timer => 0x50
  | .LCD => 0x48
  | .VBlank => 0x40

/-- `TryFrom<u8> for InterruptType` (src/memory.rs): only the five
single-bit values 16, 8, 4, 2, 1 convert. -/
def InterruptType.tryFrom (value : Nat) : Except EmuErr InterruptType :=
  if value = 16 then .ok .Joypad
  else if value = 8 then .ok .Serial
  else if value = 4 then .ok .Timer
  else if value = 2 then .ok .LCD
  else if value = 1 then .ok .VBlank
  else .error (.invalidInterruptType value)

/-- `Memory::interrupt_to_run` (src/memory.rs): reads IE and IF, takes the
lowest set bit of `IE & IF`; zero means no interrupt, otherwise the bit value
is converted to an `InterruptType` (which fails for bits 5–7) and that IF
bit is cleared in place. -/
def Memory.interruptToRun (m : Memory) :
    Except EmuErr (Option InterruptType × Memory) :=
  let ienable := m.mem INTERRUPT_ENABLE
  if INTERRUPT_FLAG < MEM_SIZE then
    let iflag := m.mem INTERRUPT_FLAG
    let priority := toLowestBitSet (ienable &&& iflag)
    if priority = 0 then .ok (none, m)
    else do
      let it ← InterruptType.tryFrom priority
      .ok (some it, m.setByte INTERRUPT_FLAG (u8SetBit iflag it.bit false))
  else .error .ifOutOfBounds

/-! ### src/byte_instruction.rs -/

/-- `ByteInstruction::x` (src/byte_instruction.rs): bits 7–6. -/
def bfX (b : Nat) : Nat := b % 256 >>> 6

/-- `ByteInstruction::y` (src/byte_instruction.rs): bits 5–3. -/
def bfY (b : Nat) : Nat := (b &&& 0b00111111) >>> 3

/-- `ByteInstruction::z` (src/byte_instruction.rs): bits 2–0. -/
def bfZ (b : Nat) : Nat := b &&& 0b00000111

/-- `ByteInstruction::p` (src/byte_instruction.rs): bits 5–4. -/
def bfP (b : Nat) : Nat := (b >>> 4) &&& 0b00000011

/-- `ByteInstruction::q` (src/byte_instruction.rs): bit 3. -/
def bfQ (b : Nat) : Bool := isBitSetU8 b 3

/-- `ByteInstruction::cond` (src/byte_instruction.rs): bits 4–3. -/
def bfCond (b : Nat) : Nat := (b >>> 3) &&& 0b00000011

/-! ### src/instruction.rs -/

/-- The `Instruction` enum (src/instruction.rs).  The `pfx` variant is the
source's 0xCB escape variant (named `Prefix` there). -/
inductive Instruction where
  | nop
  | halt
  | ldR16Imm16 (reg : R16)
  | ldR16memA (reg : R16Mem)
  | ldAR16mem (reg : R16Mem)
  | ldImm16Sp
  | incR16 (reg : R16)
  | decR16 (reg : R16)
  | addHlR16 (reg : R16)
  | incR8 (reg : R8)
  | decR8 (reg : R8)
  | ldR8Imm8 (reg : R8)
  | rlca
  | rrca
  | rla
  | rra
  | daa
  | cpl
  | scf
  | ccf
  | jrImm8
  | jrCondImm8 (cond : Cond)
  | ldR8R8 (src dst : R8)
  | addAR8 (reg : R8) (carry : Bool)
  | subAR8 (reg : R8) (carry : Bool)
  | andAR8 (reg : R8)
  | xorAR8 (reg : R8)
  | orAR8 (reg : R8)
  | cpAR8 (reg : R8)
  | addAImm8 (carry : Bool)
  | subAImm8 (carry : Bool)
  | andAImm8
  | xorAImm8
  | orAImm8
  | cpAImm8
  | retCond (cond : Cond)
  | ret
  | reti
  | jpCondImm16 (cond : Cond)
  | jpImm16
  | jpHl
  | callCondImm16 (cond : Cond)
  | callImm16
  | rstTgt3 (tgt3 : Nat)
  | popR16stk (reg : R16Stk)
  | pushR16stk (reg : R16Stk)
  | pfx
  | ldhCA
  | ldhImm8A
  | ldImm16A
  | ldhAC
  | ldhAImm8
  | ldAImm16
  | addSpImm8
  | ldHlSpImm8
  | ldSpHl
  | di
  | ei
deriving Repr

/-- Modelled from the spec: the literal opcode constants live in the
repository's `instructions` module, which is declared in src/lib.rs but
absent from src/; the values are fixed by the spec (§4.2: 0x00 = no-op,
0x76 = halt, 0xCB = extended-set escape) and, for the rest, by the standard
SM83 opcode table the spec directs implementers to (§4.1 "well-known
z80/SM83 opcode grouping", §9), matched to the mnemonic comments of
src/instruction.rs. -/
def NOOP : Nat := 0x00
/-- Modelled from the spec: see `NOOP`. -/
def HALT : Nat := 0x76
/-- Modelled from the spec: see `NOOP`. -/
def LD_IMM16_SP : Nat := 0x08
/-- Modelled from the spec: see `NOOP`. -/
def RLCA : Nat := 0x07
/-- Modelled from the spec: see `NOOP`. -/
def RRCA : Nat := 0x0F
/-- Modelled from the spec: see `NOOP`. -/
def RLA : Nat := 0x17
/-- Modelled from the spec: see `NOOP`. -/
def RRA : Nat := 0x1F
/-- Modelled from the spec: see `NOOP`. -/
def DAA : Nat := 0x27
/-- Modelled from the spec: see `NOOP`. -/
def CPL : Nat := 0x2F
/-- Modelled from the spec: see `NOOP`. -/
def SCF : Nat := 0x37
/-- Modelled from the spec: see `NOOP`. -/
def CCF : Nat := 0x3F
/-- Modelled from the spec: see `NOOP`. -/
def JR_IMM8 : Nat := 0x18
/-- Modelled from the spec: see `NOOP`. -/
def AND_A_IMM8 : Nat := 0xE6
/-- Modelled from the spec: see `NOOP`. -/
def XOR_A_IMM8 : Nat := 0xEE
/-- Modelled from the spec: see `NOOP`. -/
def OR_A_IMM8 : Nat := 0xF6
/-- Modelled from the spec: see `NOOP`. -/
def CP_A_IMM8 : Nat := 0xFE
/-- Modelled from the spec: see `NOOP`. -/
def RET : Nat := 0xC9
/-- Modelled from the spec: see `NOOP`. -/
def RETI : Nat := 0xD9
/-- Modelled from the spec: see `NOOP`. -/
def JP_IMM16 : Nat := 0xC3
/-- Modelled from the spec: see `NOOP`. -/
def JP_HL : Nat := 0xE9
/-- Modelled from the spec: see `NOOP`. -/
def CALL_IMM16 : Nat := 0xCD
/-- Modelled from the spec: see `NOOP`. -/
def PREFIX : Nat := 0xCB
/-- Modelled from the spec: see `NOOP`. -/
def LDH_C_A : Nat := 0xE2
/-- Modelled from the spec: see `NOOP`. -/
def LDH_IMM8_A : Nat := 0xE0
/-- Modelled from the spec: see `NOOP`. -/
def LD_IMM16_A : Nat := 0xEA
/-- Modelled from the spec: see `NOOP`. -/
def LDH_A_C : Nat := 0xF2
/-- Modelled from the spec: see `NOOP`. -/
def LDH_A_IMM8 : Nat := 0xF0
/-- Modelled from the spec: see `NOOP`. -/
def LD_A_IMM16 : Nat := 0xFA
/-- Modelled from the spec: see `NOOP`. -/
def ADD_SP_IMM8 : Nat := 0xE8
/-- Modelled from the spec: see `NOOP`. -/
def LD_HL_SP_IMM8 : Nat := 0xF8
/-- Modelled from the spec: see `NOOP`. -/
def LD_SP_HL : Nat := 0xF9
/-- Modelled from the spec: see `NOOP`. -/
def DI : Nat := 0xF3
/-- Modelled from the spec: see `NOOP`. -/
def EI : Nat := 0xFB

/-- `TryFrom<u8> for Instruction` (src/instruction.rs), with the
`opcode_match!` bit patterns expanded to the byte sets the macro generates
(src/mobulator-macros).  Arms appear in source order, so e.g. 0x76 hits the
HALT arm before the `01______` ld r8, r8 range. -/
def Instruction.tryFrom (value : Nat) : Except EmuErr Instruction :=
  if value = NOOP then .ok .nop
  else if value = HALT then .ok .halt
  -- ld r16, imm16: opcode_match!(00__0001) = {0x01, 0x11, 0x21, 0x31}
  else if value = 0x01 ∨ value = 0x11 ∨ value = 0x21 ∨ value = 0x31 then do
    let reg ← R16.tryFrom (bfP value); .ok (.ldR16Imm16 reg)
  -- ld [r16mem], a: opcode_match!(00__0010) = {0x02, 0x12, 0x22, 0x32}
  else if value = 0x02 ∨ value = 0x12 ∨ value = 0x22 ∨ value = 0x32 then do
    let reg ← R16Mem.tryFrom (bfP value); .ok (.ldR16memA reg)
  -- ld a, [r16mem]: opcode_match!(00__1010) = {0x0A, 0x1A, 0x2A, 0x3A}
  else if value = 0x0A ∨ value = 0x1A ∨ value = 0x2A ∨ value = 0x3A then do
    let reg ← R16Mem.tryFrom (bfP value); .ok (.ldAR16mem reg)
  else if value = LD_IMM16_SP then .ok .ldImm16Sp
  -- inc r16: opcode_match!(00__0011) = {0x03, 0x13, 0x23, 0x33}
  else if value = 0x03 ∨ value = 0x13 ∨ value = 0x23 ∨ value = 0x33 then do
    let reg ← R16.tryFrom (bfP value); .ok (.incR16 reg)
  -- dec r16: opcode_match!(00__1011) = {0x0B, 0x1B, 0x2B, 0x3B}
  else if value = 0x0B ∨ value = 0x1B ∨ value = 0x2B ∨ value = 0x3B then do
    let reg ← R16.tryFrom (bfP value); .ok (.decR16 reg)
  -- add hl, r16: opcode_match!(00__1001) = {0x09, 0x19, 0x29, 0x39}
  else if value = 0x09 ∨ value = 0x19 ∨ value = 0x29 ∨ value = 0x39 then do
    let reg ← R16.tryFrom (bfP value); .ok (.addHlR16 reg)
  -- inc r8: opcode_match!(00___100) = {0x04, 0x0C, ..., 0x3C} (step 8)
  else if value < 0x40 ∧ value % 8 = 4 then do
    let reg ← R8.tryFrom (bfY value); .ok (.incR8 reg)
  -- dec r8: opcode_match!(00___101) = {0x05, 0x0D, ..., 0x3D} (step 8)
  else if value < 0x40 ∧ value % 8 = 5 then do
    let reg ← R8.tryFrom (bfY value); .ok (.decR8 reg)
  -- ld r8, imm8: opcode_match!(00___110) = {0x06, 0x0E, ..., 0x3E} (step 8)
  else if value < 0x40 ∧ value % 8 = 6 then do
    let reg ← R8.tryFrom (bfY value); .ok (.ldR8Imm8 reg)
  else if value = RLCA then .ok .rlca
  else if value = RRCA then .ok .rrca
  else if value = RLA then .ok .rla
  else if value = RRA then .ok .rra
  else if value = DAA then .ok .daa
  else if value = CPL then .ok .cpl
  else if value = SCF then .ok .scf
  else if value = CCF then .ok .ccf
  else if value = JR_IMM8 then .ok .jrImm8
  -- jr cond, imm8: opcode_match!(001__000) = {0x20, 0x28, 0x30, 0x38}
  else if value = 0x20 ∨ value = 0x28 ∨ value = 0x30 ∨ value = 0x38 then do
    let cond ← Cond.tryFrom (bfCond value); .ok (.jrCondImm8 cond)
  -- ld r8, r8: opcode_match!(01______) = 0x40..0x7F
  else if 0x40 ≤ value ∧ value < 0x80 then do
    let src ← R8.tryFrom (bfZ value)
    let dst ← R8.tryFrom (bfY value)
    .ok (.ldR8R8 src dst)
  -- add/adc a, r8: opcode_match!(1000____) = 0x80..0x8F
  else if 0x80 ≤ value ∧ value < 0x90 then do
    let reg ← R8.tryFrom (bfZ value); .ok (.addAR8 reg (bfQ value))
  -- sub/sbc a, r8: opcode_match!(1001____) = 0x90..0x9F
  else if 0x90 ≤ value ∧ value < 0xA0 then do
    let reg ← R8.tryFrom (bfZ value); .ok (.subAR8 reg (bfQ value))
  -- and a, r8: opcode_match!(10100___) = 0xA0..0xA7
  else if 0xA0 ≤ value ∧ value < 0xA8 then do
    let reg ← R8.tryFrom (bfZ value); .ok (.andAR8 reg)
  -- xor a, r8: opcode_match!(10101___) = 0xA8..0xAF
  else if 0xA8 ≤ value ∧ value < 0xB0 then do
    let reg ← R8.tryFrom (bfZ value); .ok (.xorAR8 reg)
  -- or a, r8: opcode_match!(10110___) = 0xB0..0xB7
  else if 0xB0 ≤ value ∧ value < 0xB8 then do
    let reg ← R8.tryFrom (bfZ value); .ok (.orAR8 reg)
  -- cp a, r8: opcode_match!(10111___) = 0xB8..0xBF
  else if 0xB8 ≤ value ∧ value < 0xC0 then do
    let reg ← R8.tryFrom (bfZ value); .ok (.cpAR8 reg)
  -- add/adc a, imm8: opcode_match!(1100_110) = {0xC6, 0xCE}
  else if value = 0xC6 ∨ value = 0xCE then .ok (.addAImm8 (bfQ value))
  -- sub/sbc a, imm8: opcode_match!(1101_110) = {0xD6, 0xDE}
  else if value = 0xD6 ∨ value = 0xDE then .ok (.subAImm8 (bfQ value))
  else if value = AND_A_IMM8 then .ok .andAImm8
  else if value = XOR_A_IMM8 then .ok .xorAImm8
  else if value = OR_A_IMM8 then .ok .orAImm8
  else if value = CP_A_IMM8 then .ok .cpAImm8
  -- ret cond: opcode_match!(110__000) = {0xC0, 0xC8, 0xD0, 0xD8}
  else if value = 0xC0 ∨ value = 0xC8 ∨ value = 0xD0 ∨ value = 0xD8 then do
    let cond ← Cond.tryFrom (bfCond value); .ok (.retCond cond)
  else if value = RET then .ok .ret
  else if value = RETI then .ok .reti
  -- jp cond, imm16: opcode_match!(110__010) = {0xC2, 0xCA, 0xD2, 0xDA}
  else if value = 0xC2 ∨ value = 0xCA ∨ value = 0xD2 ∨ value = 0xDA then do
    let cond ← Cond.tryFrom (bfCond value); .ok (.jpCondImm16 cond)
  else if value = JP_IMM16 then .ok .jpImm16
  else if value = JP_HL then .ok .jpHl
  -- call cond, imm16: opcode_match!(110__100) = {0xC4, 0xCC, 0xD4, 0xDC}
  else if value = 0xC4 ∨ value = 0xCC ∨ value = 0xD4 ∨ value = 0xDC then do
    let cond ← Cond.tryFrom (bfCond value); .ok (.callCondImm16 cond)
  else if value = CALL_IMM16 then .ok .callImm16
  -- rst tgt3: opcode_match!(11___111) = {0xC7, 0xCF, ..., 0xFF} (step 8)
  else if 0xC0 ≤ value ∧ value % 8 = 7 ∧ value < 0x100 then .ok (.rstTgt3 (bfY value))
  -- pop r16stk: opcode_match!(11__0001) = {0xC1, 0xD1, 0xE1, 0xF1}
  else if value = 0xC1 ∨ value = 0xD1 ∨ value = 0xE1 ∨ value = 0xF1 then do
    let reg ← R16Stk.tryFrom (bfP value); .ok (.popR16stk reg)
  -- push r16stk: opcode_match!(11__0101) = {0xC5, 0xD5, 0xE5, 0xF5}
  else if value = 0xC5 ∨ value = 0xD5 ∨ value = 0xE5 ∨ value = 0xF5 then do
    let reg ← R16Stk.tryFrom (bfP value); .ok (.pushR16stk reg)
  else if value = PREFIX then .ok .pfx
  else if value = LDH_C_A then .ok .ldhCA
  else if value = LDH_IMM8_A then .ok .ldhImm8A
  else if value = LD_IMM16_A then .ok .ldImm16A
  else if value = LDH_A_C then .ok .ldhAC
  else if value = LDH_A_IMM8 then .ok .ldhAImm8
  else if value = LD_A_IMM16 then .ok .ldAImm16
  else if value = ADD_SP_IMM8 then .ok .addSpImm8
  else if value = LD_HL_SP_IMM8 then .ok .ldHlSpImm8
  else if value = LD_SP_HL then .ok .ldSpHl
  else if value = DI then .ok .di
  else if value = EI then .ok .ei
  else .error (.unimplementedInstruction value)

/-- `Instruction::cycles` (src/instruction.rs). -/
def Instruction.cycles : Instruction → Nat
  | .nop => 1
  | .halt => 1
  | .ldR16Imm16 _ => 3
  | .ldR16memA _ => 2
  | .ldAR16mem _ => 2
  | .ldImm16Sp => 5
  | .incR16 _ => 2
  | .decR16 _ => 2
  | .addHlR16 _ => 2
  | .incR8 .HL => 3
  | .decR8 .HL => 3
  | .incR8 _ => 1
  | .decR8 _ => 1
  | .ldR8Imm8 .HL => 3
  | .ldR8Imm8 _ => 2
  | .rlca => 1
  | .rrca => 1
  | .rla => 1
  | .rra => 1
  | .daa => 1
  | .cpl => 1
  | .scf => 1
  | .ccf => 1
  | .jrImm8 => 3
  | .jrCondImm8 _ => 2
  | .ldR8R8 .HL _ => 2
  | .ldR8R8 _ .HL => 2
  | .ldR8R8 _ _ => 1
  | .addAR8 .HL _ => 2
  | .addAR8 _ _ => 1
  | .subAR8 .HL _ => 2
  | .subAR8 _ _ => 1
  | .andAR8 .HL => 2
  | .andAR8 _ => 1
  | .xorAR8 .HL => 2
  | .xorAR8 _ => 1
  | .orAR8 .HL => 2
  | .orAR8 _ => 1
  | .cpAR8 .HL => 2
  | .cpAR8 _ => 1
  | .addAImm8 _ => 2
  | .subAImm8 _ => 2
  | .andAImm8 => 2
  | .xorAImm8 => 2
  | .orAImm8 => 2
  | .cpAImm8 => 2
  | .retCond _ => 2
  | .ret => 4
  | .reti => 4
  | .jpCondImm16 _ => 3
  | .jpImm16 => 4
  | .jpHl => 1
  | .callCondImm16 _ => 3
  | .callImm16 => 6
  | .rstTgt3 _ => 4
  | .popR16stk _ => 3
  | .pushR16stk _ => 4
  | .pfx => 0
  | .ldhCA => 2
  | .ldhImm8A => 3
  | .ldImm16A => 4
  | .ldhAC => 2
  | .ldhAImm8 => 3
  | .ldAImm16 => 4
  | .addSpImm8 => 4
  | .ldHlSpImm8 => 3
  | .ldSpHl => 2
  | .di => 1
  | .ei => 1

/-- The `PrefixedInstruction` enum (src/instruction.rs): the 0xCB extended
opcode set. -/
inductive PrefixedInstruction where
  | rlcR8 (reg : R8)
  | rrcR8 (reg : R8)
  | rlR8 (reg : R8)
  | rrR8 (reg : R8)
  | slaR8 (reg : R8)
  | sraR8 (reg : R8)
  | swapR8 (reg : R8)
  | srlR8 (reg : R8)
  | bitB3R8 (bit : Nat) (reg : R8)
  | resB3R8 (bit : Nat) (reg : R8)
  | setB3R8 (bit : Nat) (reg : R8)
deriving DecidableEq, Repr

/-- `TryFrom<u8> for PrefixedInstruction` (src/instruction.rs), the
`opcode_match!` ranges expanded. -/
def PrefixedInstruction.tryFrom (value : Nat) :
    Except EmuErr PrefixedInstruction :=
  if value < 0x08 then do
    let reg ← R8.tryFrom (bfZ value); .ok (.rlcR8 reg)
  else if value < 0x10 then do
    let reg ← R8.tryFrom (bfZ value); .ok (.rrcR8 reg)
  else if value < 0x18 then do
    let reg ← R8.tryFrom (bfZ value); .ok (.rlR8 reg)
  else if value < 0x20 then do
    let reg ← R8.tryFrom (bfZ value); .ok (.rrR8 reg)
  else if value < 0x28 then do
    let reg ← R8.tryFrom (bfZ value); .ok (.slaR8 reg)
  else if value < 0x30 then do
    let reg ← R8.tryFrom (bfZ value); .ok (.sraR8 reg)
  else if value < 0x38 then do
    let reg ← R8.tryFrom (bfZ value); .ok (.swapR8 reg)
  else if value < 0x40 then do
    let reg ← R8.tryFrom (bfZ value); .ok (.srlR8 reg)
  else if value < 0x80 then do
    let reg ← R8.tryFrom (bfZ value); .ok (.bitB3R8 (bfY value) reg)
  else if value < 0xC0 then do
    let reg ← R8.tryFrom (bfZ value); .ok (.resB3R8 (bfY value) reg)
  else if value < 0x100 then do
    let reg ← R8.tryFrom (bfZ value); .ok (.setB3R8 (bfY value) reg)
  else .error (.unimplementedInstruction value)

/-- `PrefixedInstruction::cycles` (src/instruction.rs). -/
def PrefixedInstruction.cycles : PrefixedInstruction → Nat
  | .rlcR8 .HL => 4
  | .rlcR8 _ => 2
  | .rrcR8 .HL => 4
  | .rrcR8 _ => 2
  | .rlR8 .HL => 4
  | .rlR8 _ => 2
  | .rrR8 .HL => 4
  | .rrR8 _ => 2
  | .slaR8 .HL => 4
  | .slaR8 _ => 2
  | .sraR8 .HL => 4
  | .sraR8 _ => 2
  | .swapR8 .HL => 4
  | .swapR8 _ => 2
  | .srlR8 .HL => 4
  | .srlR8 _ => 2
  | .bitB3R8 _ .HL => 3
  | .bitB3R8 _ _ => 2
  | .resB3R8 _ .HL => 4
  | .resB3R8 _ _ => 2
  | .setB3R8 _ .HL => 4
  | .setB3R8 _ _ => 2

/-! ### src/cpu.rs -/

/-- `BitExt::is_bit_set` for `u8` delegates to `is_bit_set_u16`
(src/utils.rs). -/
def u8IsBitSet (n bit : Nat) : Bool := isBitSetU16 n bit

/-- `u8::rotate_left(1)`. -/
def rotl8 (a : Nat) : Nat := a % 256 * 2 % 256 ||| a % 256 / 128

/-- `u8::rotate_right(1)`. -/
def rotr8 (a : Nat) : Nat := a % 256 / 2 ||| a % 256 % 2 * 128

/-- The `Status` returned by a dispatch (src/cpu.rs); `Pfx` is the source's
`Prefix` variant (extended opcode set pending). -/
inductive Status where
  | Cycles (n : Nat)
  | Break
  | Pfx
deriving DecidableEq, Repr

/-- The CPU: register file plus memory (src/cpu.rs). -/
structure Cpu where
  registers : Registers
  memory : Memory

/-- `Cpu::default()`. -/
def Cpu.default : Cpu := ⟨Registers.default, Memory.default⟩

/-- `Iterator::next for Cpu` (src/cpu.rs): read the byte at PC and increment
PC (wrapping); PC is incremented even when the read fails. -/
def Cpu.next (c : Cpu) : Option (Nat × Cpu) :=
  let b := c.memory.getByte c.registers.pc
  let c1 : Cpu :=
    { c with registers := { c.registers with pc := wadd16 c.registers.pc 1 } }
  match b with
  | .ok v => some (v, c1)
  | .error _ => none

/-- `self.next().ok_or(...)` / `.context(...)`: the `Option` from `next`
turned into a "no more memory" error (src/cpu.rs). -/
def Cpu.nextByte (c : Cpu) : Except EmuErr (Nat × Cpu) :=
  match c.next with
  | some x => .ok x
  | none => .error .noMoreMemory

/-- `Cpu::imm8` (src/cpu.rs). -/
def Cpu.imm8 (c : Cpu) : Except EmuErr (Nat × Cpu) := c.nextByte

/-- `Cpu::imm16` (src/cpu.rs): two fetched bytes joined little-endian. -/
def Cpu.imm16 (c : Cpu) : Except EmuErr (Nat × Cpu) := do
  let (first, c1) ← c.nextByte
  let (second, c2) ← c1.nextByte
  .ok (first + 256 * second, c2)

/-- `Cpu::pop` (src/cpu.rs): low byte at SP, high byte at SP+1, then
SP += 2 (wrapping). -/
def Cpu.pop (c : Cpu) : Except EmuErr (Nat × Cpu) := do
  let low ← c.memory.getByte c.registers.sp
  let high ← c.memory.getByte (wadd16 c.registers.sp 1)
  let c1 : Cpu :=
    { c with registers := { c.registers with sp := wadd16 c.registers.sp 2 } }
  .ok (high * 256 + low, c1)

/-- `Cpu::push` (src/cpu.rs): high byte at SP-1, low byte at SP-2, then
SP -= 2 (all wrapping). -/
def Cpu.push (c : Cpu) (val : Nat) : Except EmuErr Cpu :=
  let high := val % 65536 / 256
  let low := val % 256
  let m1 := c.memory.setByte (wsub16 c.registers.sp 1) high
  let m2 := m1.setByte (wsub16 c.registers.sp 2) low
  .ok { registers := { c.registers with sp := wsub16 c.registers.sp 2 },
        memory := m2 }

/-- `Cpu::push_stack_pc` (src/cpu.rs): SP -= 2 (wrapping), then
`Memory::set_u16(SP, PC)` — which panics when the new SP is 0xFFFF. -/
def Cpu.pushStackPc (c : Cpu) : Except EmuErr Cpu := do
  let sp1 := wsub16 c.registers.sp 2
  let m1 ← c.memory.setU16 sp1 c.registers.pc
  .ok { registers := { c.registers with sp := sp1 }, memory := m1 }

/-- `Cpu::cond_met` (src/cpu.rs). -/
def Cpu.condMet (c : Cpu) (cond : Cond) : Bool :=
  match cond with
  | .NZ => !c.registers.zFlg
  | .Z => c.registers.zFlg
  | .NC => !c.registers.cFlg
  | .C => c.registers.cFlg

/-- `Cpu::get_r8` (src/cpu.rs): the HL case reads memory at HL. -/
def Cpu.getR8 (c : Cpu) (r8 : R8) : Except EmuErr Nat :=
  match r8 with
  | .B => .ok c.registers.b
  | .C => .ok c.registers.c
  | .D => .ok c.registers.d
  | .E => .ok c.registers.e
  | .H => .ok c.registers.h
  | .L => .ok c.registers.l
  | .A => .ok c.registers.a
  | .HL => c.memory.getByte c.registers.hl

/-- `Cpu::set_r8` (src/cpu.rs): the HL case writes memory at HL. -/
def Cpu.setR8 (c : Cpu) (r8 : R8) (value : Nat) : Cpu :=
  match r8 with
  | .B => { c with registers := { c.registers with bc := setHigh c.registers.bc value } }
  | .C => { c with registers := { c.registers with bc := setLow c.registers.bc value } }
  | .D => { c with registers := { c.registers with de := setHigh c.registers.de value } }
  | .E => { c with registers := { c.registers with de := setLow c.registers.de value } }
  | .H => { c with registers := { c.registers with hl := setHigh c.registers.hl value } }
  | .L => { c with registers := { c.registers with hl := setLow c.registers.hl value } }
  | .A => { c with registers := { c.registers with af := setHigh c.registers.af value } }
  | .HL => { c with memory := c.memory.setByte c.registers.hl value }

/-- `inc_or_dec(value, add)` (src/cpu.rs): wrapping ±1 on `u8` plus the
half-carry flag. -/
def incOrDec (value : Nat) (add : Bool) : Nat × Bool :=
  if add then ((value + 1) % 256, halfCarryAddU8 value 1 false)
  else ((value % 256 + 256 - 1) % 256, halfCarrySubU8 value 1 false)

/-- The body of the `match instruction` in `Cpu::run_8bit_opcode`
(src/cpu.rs).  `b` is the fetched instruction byte (used by the catch-all
`bail!`).  Arms that do not return early fall through to the shared
`Ok(Status::Cycles(instruction.cycles()))` tail, here the closure `done`;
the Halt, Di and Ei variants have no arm in the source and hit the
catch-all `bail!("Haven't implented instruction ...")`. -/
def execInstruction (b : Nat) (i : Instruction) (c : Cpu) :
    Except EmuErr (Status × Cpu) :=
  let done := fun (c' : Cpu) => Except.ok (Status.Cycles i.cycles, c')
  match i with
  | .nop => done c
  | .ldR16Imm16 reg => do
    let (data, c1) ← c.imm16
    done { c1 with registers := c1.registers.setR16 reg data }
  | .ldR16memA reg => do
    let (addr, r1) ← c.registers.getR16mem reg
    let c1 : Cpu := { c with registers := r1 }
    done { c1 with memory := c1.memory.setByte addr c1.registers.a }
  | .ldAR16mem reg => do
    let (addr, r1) ← c.registers.getR16mem reg
    let c1 : Cpu := { c with registers := r1 }
    let data ← c1.memory.getByte addr
    done { c1 with registers := c1.registers.setA data }
  | .ldImm16Sp => do
    let (addr, c1) ← c.imm16
    let high := c1.registers.sp % 65536 / 256
    let low := c1.registers.sp % 256
    let m1 := c1.memory.setByte addr low
    -- the second store indexes with the checked u16 sum `addr + 1`
    if addr + 1 < 65536 then done { c1 with memory := m1.setByte (addr + 1) high }
    else .error .panicked
  | .incR16 reg =>
    done { c with registers :=
      c.registers.setR16 reg (wadd16 (c.registers.getR16 reg) 1) }
  | .decR16 reg =>
    done { c with registers :=
      c.registers.setR16 reg (wsub16 (c.registers.getR16 reg) 1) }
  | .addHlR16 reg =>
    let regVal := c.registers.getR16 reg
    let result := (c.registers.hl + regVal) % 65536
    let overflow := decide (c.registers.hl + regVal ≥ 65536)
    let r1 := (c.registers.setNFlg false).setHFlg
      (halfCarryAddU16 regVal c.registers.hl)
    let r2 := r1.setCFlg overflow
    done { c with registers := { r2 with hl := result } }
  | .incR8 reg => do
    let val ← c.getR8 reg
    let (newVal, carryFlag) := incOrDec val true
    let c1 := c.setR8 reg newVal
    done { c1 with registers :=
      ((c1.registers.setZFlg (newVal == 0)).setNFlg false).setHFlg carryFlag }
  | .decR8 reg => do
    let val ← c.getR8 reg
    let (newVal, carryFlag) := incOrDec val false
    let c1 := c.setR8 reg newVal
    done { c1 with registers :=
      ((c1.registers.setZFlg (newVal == 0)).setNFlg true).setHFlg carryFlag }
  | .ldR8Imm8 reg => do
    let (value, c1) ← c.imm8
    done (c1.setR8 reg value)
  | .rlca =>
    let rotated := rotl8 c.registers.a
    let r1 := (c.registers.setA rotated).setZFlg false |>.setNFlg false
      |>.setHFlg false |>.setCFlg (u8IsBitSet rotated 0)
    done { c with registers := r1 }
  | .rrca =>
    let a := c.registers.a
    let rotated := rotr8 a
    let r1 := (c.registers.setA rotated).setZFlg false |>.setNFlg false
      |>.setHFlg false |>.setCFlg (u8IsBitSet a 0)
    done { c with registers := r1 }
  | .rla =>
    let a := c.registers.a
    let rotated := u8SetBit (rotl8 a) 0 c.registers.cFlg
    let r1 := (c.registers.setA rotated).setZFlg false |>.setNFlg false
      |>.setHFlg false |>.setCFlg (u8IsBitSet a 7)
    done { c with registers := r1 }
  | .rra =>
    let a := c.registers.a
    let rotated := u8SetBit (rotr8 a) 7 c.registers.cFlg
    let r1 := (c.registers.setA rotated).setZFlg false |>.setNFlg false
      |>.setHFlg false |>.setCFlg (u8IsBitSet a 0)
    done { c with registers := r1 }
  | .daa =>
    let a := c.registers.a
    let firstDigit := a &&& 0b1111
    let subtract := c.registers.nFlg
    let offset1 : Nat :=
      if (!subtract && decide (firstDigit > 9)) || c.registers.hFlg then 6 else 0
    let doHigh := (!subtract && decide (a > 0x99)) || c.registers.cFlg
    let offset := offset1 + (if doHigh then 0x60 else 0)
    let carry := doHigh
    let val := if subtract then (a % 256 + 256 - offset) % 256 else (a + offset) % 256
    let r1 := (c.registers.setA val).setZFlg (val == 0) |>.setHFlg false
      |>.setCFlg carry
    done { c with registers := r1 }
  | .cpl =>
    let a := c.registers.a
    let r1 := (c.registers.setA (a % 256 ^^^ 255)).setNFlg true |>.setHFlg true
    done { c with registers := r1 }
  | .scf =>
    done { c with registers :=
      ((c.registers.setNFlg false).setHFlg false).setCFlg true }
  | .ccf =>
    done { c with registers :=
      ((c.registers.setNFlg false).setHFlg false).setCFlg (!c.registers.cFlg) }
  | .jrImm8 => do
    let (r, c1) ← c.imm8
    done { c1 with registers :=
      { c1.registers with pc := waddSigned16 c1.registers.pc r } }
  | .jrCondImm8 cond => do
    let (r, c1) ← c.imm8
    if c1.condMet cond then
      .ok (.Cycles 3, { c1 with registers :=
        { c1.registers with pc := waddSigned16 c1.registers.pc r } })
    else done c1
  | .ldR8R8 src dst =>
    if src ≠ dst then do
      let v ← c.getR8 src
      done (c.setR8 dst v)
    else done c
  | .addAR8 reg carry => do
    let regVal ← c.getR8 reg
    let a := c.registers.a
    let sum1 := (regVal + a) % 256
    let ov1 := decide (regVal + a ≥ 256)
    let cin := carry && c.registers.cFlg
    let newVal := if cin then (sum1 + 1) % 256 else sum1
    let overflow := if cin then (ov1 || decide (sum1 + 1 ≥ 256)) else ov1
    let r1 := (c.registers.setA newVal).setZFlg (newVal == 0) |>.setNFlg false
    let r2 := r1.setHFlg (halfCarryAddU8 regVal a (carry && r1.cFlg))
    done { c with registers := r2.setCFlg overflow }
  | .subAR8 reg carry => do
    let regVal ← c.getR8 reg
    let a := c.registers.a
    let diff1 := (a % 256 + 256 - regVal % 256) % 256
    let ov1 := decide (a % 256 < regVal % 256)
    let cin := carry && c.registers.cFlg
    let newVal := if cin then (diff1 + 256 - 1) % 256 else diff1
    let overflow := if cin then (ov1 || decide (diff1 < 1)) else ov1
    let r1 := (c.registers.setA newVal).setZFlg (newVal == 0) |>.setNFlg true
    let r2 := r1.setHFlg (halfCarrySubU8 a regVal (carry && r1.cFlg))
    done { c with registers := r2.setCFlg overflow }
  | .andAR8 reg => do
    let regVal ← c.getR8 reg
    let newVal := regVal &&& c.registers.a
    let r1 := (c.registers.setA newVal).setZFlg (newVal == 0) |>.setNFlg false
      |>.setHFlg true |>.setCFlg false
    done { c with registers := r1 }
  | .xorAR8 reg => do
    let regVal ← c.getR8 reg
    let newVal := regVal % 256 ^^^ c.registers.a
    let r1 := (c.registers.setA newVal).setZFlg (newVal == 0) |>.setNFlg false
      |>.setHFlg false |>.setCFlg false
    done { c with registers := r1 }
  | .orAR8 reg => do
    let regVal ← c.getR8 reg
    let newVal := regVal ||| c.registers.a
    let r1 := (c.registers.setA newVal).setZFlg (newVal == 0) |>.setNFlg false
      |>.setHFlg false |>.setCFlg false
    done { c with registers := r1 }
  | .cpAR8 reg => do
    let regVal ← c.getR8 reg
    let a := c.registers.a
    let overflow := decide (a % 256 < regVal % 256)
    let r1 := (c.registers.setZFlg (regVal == a)).setNFlg true
      |>.setHFlg (halfCarrySubU8 a regVal false) |>.setCFlg overflow
    done { c with registers := r1 }
  | .addAImm8 carry => do
    let (imm8, c1) ← c.imm8
    let a := c1.registers.a
    let sum1 := (a + imm8) % 256
    let ov1 := decide (a + imm8 ≥ 256)
    let cin := carry && c1.registers.cFlg
    let newVal := if cin then (sum1 + 1) % 256 else sum1
    let overflow := if cin then (ov1 || decide (sum1 + 1 ≥ 256)) else ov1
    let r1 := (c1.registers.setA newVal).setZFlg (newVal == 0) |>.setNFlg false
    let r2 := r1.setHFlg (halfCarryAddU8 a imm8 (carry && r1.cFlg))
    done { c1 with registers := r2.setCFlg overflow }
  | .subAImm8 carry => do
    let (imm8, c1) ← c.imm8
    let a := c1.registers.a
    let diff1 := (a % 256 + 256 - imm8 % 256) % 256
    let ov1 := decide (a % 256 < imm8 % 256)
    let cin := carry && c1.registers.cFlg
    let newVal := if cin then (diff1 + 256 - 1) % 256 else diff1
    let overflow := if cin then (ov1 || decide (diff1 < 1)) else ov1
    let r1 := (c1.registers.setA newVal).setZFlg (newVal == 0) |>.setNFlg true
    let r2 := r1.setHFlg (halfCarrySubU8 a imm8 (carry && r1.cFlg))
    done { c1 with registers := r2.setCFlg overflow }
  | .andAImm8 => do
    let (imm8, c1) ← c.imm8
    let newVal := c1.registers.a &&& imm8
    let r1 := (c1.registers.setA newVal).setZFlg (newVal == 0) |>.setNFlg false
      |>.setHFlg true |>.setCFlg false
    done { c1 with registers := r1 }
  | .xorAImm8 => do
    let (imm8, c1) ← c.imm8
    let newVal := c1.registers.a ^^^ imm8 % 256
    let r1 := (c1.registers.setA newVal).setZFlg (newVal == 0) |>.setNFlg false
      |>.setHFlg false |>.setCFlg false
    done { c1 with registers := r1 }
  | .orAImm8 => do
    let (imm8, c1) ← c.imm8
    let newVal := c1.registers.a ||| imm8
    let r1 := (c1.registers.setA newVal).setZFlg (newVal == 0) |>.setNFlg false
      |>.setHFlg false |>.setCFlg false
    done { c1 with registers := r1 }
  | .cpAImm8 => do
    let (imm8, c1) ← c.imm8
    let a := c1.registers.a
    let overflow := decide (a % 256 < imm8 % 256)
    let r1 := (c1.registers.setZFlg (imm8 == a)).setNFlg true
      |>.setHFlg (halfCarrySubU8 a imm8 false) |>.setCFlg overflow
    done { c1 with registers := r1 }
  | .retCond cond =>
    if c.condMet cond then do
      let (val, c1) ← c.pop
      .ok (.Cycles 5, { c1 with registers := { c1.registers with pc := val } })
    else done c
  | .ret => do
    let (val, c1) ← c.pop
    done { c1 with registers := { c1.registers with pc := val } }
  | .reti => do
    let (val, c1) ← c.pop
    done { c1 with registers := { c1.registers with pc := val } }
  | .jpCondImm16 cond => do
    let (imm16, c1) ← c.imm16
    if c1.condMet cond then
      .ok (.Cycles 4, { c1 with registers := { c1.registers with pc := imm16 } })
    else done c1
  | .jpImm16 => do
    let (imm16, c1) ← c.imm16
    done { c1 with registers := { c1.registers with pc := imm16 } }
  | .jpHl =>
    done { c with registers := { c.registers with pc := c.registers.hl } }
  | .callCondImm16 cond => do
    let (imm16, c1) ← c.imm16
    if c1.condMet cond then do
      let c2 ← c1.pushStackPc
      .ok (.Cycles 6, { c2 with registers := { c2.registers with pc := imm16 } })
    else done c1
  | .callImm16 => do
    let (imm16, c1) ← c.imm16
    let c2 ← c1.pushStackPc
    done { c2 with registers := { c2.registers with pc := imm16 } }
  | .rstTgt3 tgt3 => do
    let c1 ← c.pushStackPc
    let addr := tgt3 % 256 * 8 % 65536
    done { c1 with registers := { c1.registers with pc := addr } }
  | .popR16stk reg => do
    let (val, c1) ← c.pop
    done { c1 with registers := c1.registers.setR16stk reg val }
  | .pushR16stk reg => do
    let c1 ← c.push (c.registers.getR16stk reg)
    done c1
  | .pfx => .ok (.Pfx, c)
  | .ldhCA =>
    let addr := 0xFF00 + c.registers.c
    done { c with memory := c.memory.setByte addr c.registers.a }
  | .ldhImm8A => do
    let (n, c1) ← c.imm8
    let addr := 0xFF00 + n
    done { c1 with memory := c1.memory.setByte addr c1.registers.a }
  | .ldImm16A => do
    let (addr, c1) ← c.imm16
    done { c1 with memory := c1.memory.setByte addr c1.registers.a }
  | .ldhAC => do
    let addr := 0xFF00 + c.registers.c
    let val ← c.memory.getByte addr
    done { c with registers := c.registers.setA val }
  | .ldhAImm8 => do
    let (n, c1) ← c.imm8
    let addr := 0xFF00 + n
    let val ← c1.memory.getByte addr
    done { c1 with registers := c1.registers.setA val }
  | .ldAImm16 => do
    let (addr, c1) ← c.imm16
    let val ← c1.memory.getByte addr
    done { c1 with registers := c1.registers.setA val }
  | .addSpImm8 => do
    let (r, c1) ← c.imm8
    let newVal := waddSigned16 c1.registers.sp r
    let r1 := (c1.registers.setZFlg false).setNFlg false
      |>.setHFlg (halfCarryAddU8 (c1.registers.sp % 256) r false)
    let r2 := r1.setCFlg (carryU16I8 c1.registers.sp r)
    done { c1 with registers := { r2 with sp := newVal } }
  | .ldHlSpImm8 => do
    let (r, c1) ← c.imm8
    let hl1 := waddSigned16 c1.registers.sp r
    let r1 := { c1.registers with hl := hl1 }
    let r2 := (r1.setZFlg false).setNFlg false
      |>.setHFlg (halfCarryAddU8 (r1.sp % 256) r false)
    done { c1 with registers := r2.setCFlg (carryU16I8 r1.sp r) }
  | .ldSpHl =>
    done { c with registers := { c.registers with sp := c.registers.hl } }
  | .halt => .error (.unimplementedInstruction b)
  | .di => .error (.unimplementedInstruction b)
  | .ei => .error (.unimplementedInstruction b)

/-- `Cpu::run_8bit_opcode` (src/cpu.rs): fetch, decode, dispatch. -/
def Cpu.run8bitOpcode (c : Cpu) : Except EmuErr (Status × Cpu) := do
  let (b, c1) ← c.nextByte
  let i ← Instruction.tryFrom b
  execInstruction b i c1

/-- Modelled from the spec: the bit-test instruction of the extended set
("bit-test/reset/set parameterized by a 3-bit index y", spec §4.2) is
declared in src/instruction.rs but has no execution arm in the copy of
src/cpu.rs; per the standard SM83 semantics the spec references, BIT sets Z
to the complement of the tested bit, N=0, H=1, and writes nothing. -/
def execBitB3R8 (bit : Nat) (reg : R8) (c : Cpu) : Except EmuErr Cpu := do
  let val ← c.getR8 reg
  .ok { c with registers :=
    ((c.registers.setZFlg (!u8IsBitSet val bit)).setNFlg false).setHFlg true }

/-- Modelled from the spec: see `execBitB3R8`; RES clears the selected bit
of the operand with no flag effects. -/
def execResB3R8 (bit : Nat) (reg : R8) (c : Cpu) : Except EmuErr Cpu := do
  let val ← c.getR8 reg
  .ok (c.setR8 reg (u8SetBit val bit false))

/-- Modelled from the spec: see `execBitB3R8`; SET sets the selected bit of
the operand with no flag effects. -/
def execSetB3R8 (bit : Nat) (reg : R8) (c : Cpu) : Except EmuErr Cpu := do
  let val ← c.getR8 reg
  .ok (c.setR8 reg (u8SetBit val bit true))

/-- The body of the `match instruction` in `Cpu::run_16bit_opcode`
(src/cpu.rs); every arm falls through to the shared
`Ok(Status::Cycles(instruction.cycles()))` tail.  The bit/res/set arms are
spec-modelled (see `execBitB3R8`). -/
def execPrefixedInstruction (i : PrefixedInstruction) (c : Cpu) :
    Except EmuErr (Status × Cpu) :=
  let done := fun (c' : Cpu) => Except.ok (Status.Cycles i.cycles, c')
  match i with
  | .rlcR8 reg => do
    let val ← c.getR8 reg
    let rotated := rotl8 val
    let c1 := c.setR8 reg rotated
    let r1 := (c1.registers.setZFlg (rotated == 0)).setNFlg false
      |>.setHFlg false |>.setCFlg (u8IsBitSet rotated 0)
    done { c1 with registers := r1 }
  | .rrcR8 reg => do
    let val ← c.getR8 reg
    let rotated := rotr8 val
    let c1 := c.setR8 reg rotated
    let r1 := (c1.registers.setZFlg (rotated == 0)).setNFlg false
      |>.setHFlg false |>.setCFlg (u8IsBitSet val 0)
    done { c1 with registers := r1 }
  | .rlR8 reg => do
    let val ← c.getR8 reg
    let rotated := u8SetBit (rotl8 val) 0 c.registers.cFlg
    let c1 := c.setR8 reg rotated
    let r1 := (c1.registers.setZFlg (rotated == 0)).setNFlg false
      |>.setHFlg false |>.setCFlg (u8IsBitSet val 7)
    done { c1 with registers := r1 }
  | .rrR8 reg => do
    let val ← c.getR8 reg
    let rotated := u8SetBit (rotr8 val) 7 c.registers.cFlg
    let c1 := c.setR8 reg rotated
    let r1 := (c1.registers.setZFlg (rotated == 0)).setNFlg false
      |>.setHFlg false |>.setCFlg (u8IsBitSet val 0)
    done { c1 with registers := r1 }
  | .slaR8 reg => do
    let val ← c.getR8 reg
    let shifted := val % 256 * 2 % 256
    let c1 := c.setR8 reg shifted
    let r1 := (c1.registers.setZFlg (shifted == 0)).setNFlg false
      |>.setHFlg false |>.setCFlg (u8IsBitSet val 7)
    done { c1 with registers := r1 }
  | .sraR8 reg => do
    let val ← c.getR8 reg
    let shifted := u8SetBit (val % 256 / 2) 7 (u8IsBitSet val 7)
    let c1 := c.setR8 reg shifted
    let r1 := (c1.registers.setZFlg (shifted == 0)).setNFlg false
      |>.setHFlg false |>.setCFlg (u8IsBitSet val 0)
    done { c1 with registers := r1 }
  | .swapR8 reg => do
    let val ← c.getR8 reg
    let swapped := (val &&& 0b00001111) <<< 4 ||| val % 256 / 16
    let c1 := c.setR8 reg swapped
    let r1 := (c1.registers.setZFlg (swapped == 0)).setNFlg false
      |>.setHFlg false |>.setCFlg false
    done { c1 with registers := r1 }
  | .srlR8 reg => do
    let val ← c.getR8 reg
    let shifted := val % 256 / 2
    let c1 := c.setR8 reg shifted
    let r1 := (c1.registers.setZFlg (shifted == 0)).setNFlg false
      |>.setHFlg false |>.setCFlg (u8IsBitSet val 0)
    done { c1 with registers := r1 }
  | .bitB3R8 bit reg => do
    let c1 ← execBitB3R8 bit reg c
    done c1
  | .resB3R8 bit reg => do
    let c1 ← execResB3R8 bit reg c
    done c1
  | .setB3R8 bit reg => do
    let c1 ← execSetB3R8 bit reg c
    done c1

/-- `Cpu::run_16bit_opcode` (src/cpu.rs). -/
def Cpu.run16bitOpcode (c : Cpu) : Except EmuErr (Status × Cpu) := do
  let (b, c1) ← c.nextByte
  let i ← PrefixedInstruction.tryFrom b
  execPrefixedInstruction i c1

/-- `Cpu::run_next_instruction` (src/cpu.rs): run the 8-bit opcode; if it
reports the prefix-pending status, immediately run the extended opcode. -/
def Cpu.runNextInstruction (c : Cpu) : Except EmuErr (Status × Cpu) := do
  let (result, c1) ← c.run8bitOpcode
  if Status.Pfx = result then c1.run16bitOpcode
  else .ok (result, c1)

/-! ### Helper lemmas -/

theorem exbind_ok {α β : Type} (a : α) (f : α → Except EmuErr β) :
    (Except.ok a : Except EmuErr α).bind f = f a := rfl

theorem exbind_err {α β : Type} (e : EmuErr) (f : α → Except EmuErr β) :
    (Except.error e : Except EmuErr α).bind f = Except.error e := rfl

/-- The status projection of a dispatch result. -/
def resultStatus (r : Except EmuErr (Status × Cpu)) : Option Status :=
  match r with
  | .ok (s, _) => some s
  | .error _ => none

/-- The register-file projection of a dispatch result. -/
def resultRegs (r : Except EmuErr (Status × Cpu)) : Option Registers :=
  match r with
  | .ok (_, c) => some c.registers
  | .error _ => none

/-- The error projection of a dispatch result. -/
def resultErr (r : Except EmuErr (Status × Cpu)) : Option EmuErr :=
  match r with
  | .ok _ => none
  | .error e => some e

/-! ### C9: the DAA scenario -/

/-- C9: executing `Daa` with A = 0x9C and prior flags N=0, H=0, C=0 yields
A = 0x02 with the carry flag set (both BCD corrections applied, +0x66 with
wraparound); Z stays clear and the whole AF becomes 0x0210. -/
theorem c9_daa_bcd_correction :
    resultRegs (execInstruction DAA Instruction.daa
        ⟨⟨0x9C00, 0, 0, 0, 0, 0⟩, Memory.default⟩) = some ⟨0x0210, 0, 0, 0, 0, 0⟩ ∧
    (resultRegs (execInstruction DAA Instruction.daa
        ⟨⟨0x9C00, 0, 0, 0, 0, 0⟩, Memory.default⟩)).map Registers.a = some 0x02 ∧
    (resultRegs (execInstruction DAA Instruction.daa
        ⟨⟨0x9C00, 0, 0, 0, 0, 0⟩, Memory.default⟩)).map Registers.cFlg = some true ∧
    resultStatus (execInstruction DAA Instruction.daa
        ⟨⟨0x9C00, 0, 0, 0, 0, 0⟩, Memory.default⟩) = some (.Cycles 1) := by
  refine ⟨rfl, rfl, rfl, rfl⟩

/-! ### C6: operand-encoding conversions -/

/-- C6 (code evaluated at the failing input): `R8::try_from(6)` is rejected
even though the repository's own encoding table, its tests and src/cpu.rs
treat encoding 6 as the memory-at-HL pseudo-register; consequently the
opcodes 0x34 (`inc [hl]`) and 0x86 (`add a, [hl]`, exercised by the
repository's own `add_a_r8` test) fail to decode.  The in-range encodings
0–5 and 7 and the R16/R16Mem encodings behave as the claim states. -/
theorem c6_r8_encoding_six_rejected :
    R8.tryFrom 6 = .error (.invalidR8 6) ∧
    Instruction.tryFrom 0x34 = .error (.invalidR8 6) ∧
    Instruction.tryFrom 0x86 = .error (.invalidR8 6) ∧
    R8.tryFrom 0 = .ok .B ∧ R8.tryFrom 5 = .ok .L ∧ R8.tryFrom 7 = .ok .A ∧
    R8.tryFrom 8 = .error (.invalidR8 8) ∧
    R16.tryFrom 3 = .ok .SP ∧ R16.tryFrom 4 = .error (.invalidR16 4) ∧
    R16Mem.tryFrom 3 = .ok .HLD ∧ R16Mem.tryFrom 4 = .error (.invalidR16Mem 4) := by
  refine ⟨rfl, rfl, rfl, rfl, rfl, rfl, rfl, rfl, rfl, rfl, rfl⟩

/-! ### C2: 16-bit stores -/

/-- C2 (counterexample): the 16-bit store at address 0xFFFF does not
succeed — the checked index computation `addr + 1` overflows `u16` and the
write aborts, contradicting the claim that `set_u16` succeeds for every
address in 0x0000–0xFFFF. -/
theorem c2_set_u16_0xFFFF_fails :
    Memory.setU16 Memory.default 0xFFFF 0xABCD = .error .panicked := rfl

/-- C2 (amended): for every address in 0x0000–0xFFFE and every 16-bit
value, `set_u16` succeeds, writing the low byte at `addr` and the high byte
at `addr + 1` (little-endian) and leaving every other cell unchanged; only
the last address 0xFFFF, where `addr + 1` leaves the address space, fails. -/
theorem c2_set_u16_little_endian (m : Memory) (addr v : Nat)
    (haddr : addr < 0xFFFF) (hv : v < 65536) :
    ∃ m', m.setU16 addr v = .ok m' ∧ m'.mem addr = v % 256 ∧
      m'.mem (addr + 1) = v / 256 ∧
      ∀ a, a ≠ addr → a ≠ addr + 1 → m'.mem a = m.mem a := by
  refine ⟨(m.setByte addr (v % 256)).setByte (addr + 1) (v / 256 % 256), ?_, ?_, ?_, ?_⟩
  · simp only [Memory.setU16]
    rw [if_pos (by omega)]
  · simp only [Memory.setByte]
    have : addr ≠ addr + 1 := by omega
    simp [this]
  · simp only [Memory.setByte]
    simp [Nat.mod_eq_of_lt (by omega : v / 256 < 256)]
  · intro a ha1 ha2
    simp only [Memory.setByte]
    simp [ha1, ha2]

/-- C2 (witness). -/
theorem c2_set_u16_little_endian_witness :
    (0xC000 < 0xFFFF ∧ (0x1234 : Nat) < 65536) ∧
    ∃ m', Memory.default.setU16 0xC000 0x1234 = .ok m' ∧
      m'.mem 0xC000 = 0x1234 % 256 ∧ m'.mem (0xC000 + 1) = 0x1234 / 256 ∧
      ∀ a, a ≠ 0xC000 → a ≠ 0xC000 + 1 → m'.mem a = Memory.default.mem a :=
  ⟨by omega, c2_set_u16_little_endian Memory.default 0xC000 0x1234 (by omega) (by omega)⟩

/-! ### C7: 16-bit wraparound -/

/-- C7 (code evaluated at the failing input): `get_r16mem(HLI)` does not
wrap at HL = 0xFFFF — the checked `self.hl += 1` overflows (debug-build
panic) instead of wrapping to 0x0000, and `HLD` likewise underflows at 0;
this contradicts the spec's demand for explicit mod-2^16 wrapping.  The
`IncR16`/`DecR16` halves of the claim do hold (they use `wrapping_add`/
`wrapping_sub`), and away from the boundary HLI returns the pre-increment
HL and leaves HL+1. -/
theorem c7_hli_overflow_bug :
    Registers.getR16mem ⟨0, 0, 0, 0xFFFF, 0, 0⟩ .HLI = .error .panicked ∧
    Registers.getR16mem ⟨0, 0, 0, 0, 0, 0⟩ .HLD = .error .panicked ∧
    Registers.getR16mem ⟨0, 0, 0, 0x1234, 0, 0⟩ .HLI = .ok (0x1234, ⟨0, 0, 0, 0x1235, 0, 0⟩) ∧
    Registers.getR16mem ⟨0, 0, 0, 0x1234, 0, 0⟩ .HLD = .ok (0x1234, ⟨0, 0, 0, 0x1233, 0, 0⟩) ∧
    resultRegs (execInstruction 0x23 (.incR16 .HL)
      ⟨⟨0, 0, 0, 0xFFFF, 0, 0⟩, Memory.default⟩) = some ⟨0, 0, 0, 0, 0, 0⟩ ∧
    resultRegs (execInstruction 0x2B (.decR16 .HL)
      ⟨⟨0, 0, 0, 0, 0, 0⟩, Memory.default⟩) = some ⟨0, 0, 0, 0xFFFF, 0, 0⟩ := by
  refine ⟨rfl, rfl, rfl, rfl, rfl, rfl⟩

/-! ### C3: dispatch of decoded instructions -/

/-- C3 (counterexample): opcode 0x76 decodes to the `Halt` variant, yet
dispatching it returns the catch-all "unimplemented instruction" error — not
an observable halted status (the `Status` type has no halted variant at
all). -/
theorem c3_halt_counterexample :
    Instruction.tryFrom 0x76 = .ok .halt ∧
    Cpu.run8bitOpcode ⟨Registers.default, Memory.default.setByte 0 0x76⟩ =
      .error (.unimplementedInstruction 0x76) ∧
    Cpu.runNextInstruction ⟨Registers.default, Memory.default.setByte 0 0x76⟩ =
      .error (.unimplementedInstruction 0x76) := by
  refine ⟨rfl, rfl, rfl⟩

/-! ### C5: interrupt query -/

/-- C5 (counterexample): with IE = IF = 0x20 (lowest set bit index 5),
`interrupt_to_run` returns an error instead of the claimed `Ok(Some(t))` —
the lowest-set-bit value 32 has no `InterruptType`. -/
theorem c5_high_bit_counterexample :
    ((Memory.default.setByte 0xFFFF 0x20).setByte 0xFF0F 0x20).interruptToRun =
      .error (.invalidInterruptType 32) := rfl

theorem exbind_okM {α β : Type} (a : α) (f : α → Except EmuErr β) :
    (bind (Except.ok a) f : Except EmuErr β) = f a := rfl

theorem exbind_errM {α β : Type} (e : EmuErr) (f : α → Except EmuErr β) :
    (bind (Except.error e) f : Except EmuErr β) = Except.error e := rfl

theorem getByte_ok (m : Memory) (addr : Nat) (h : addr < 65536) :
    m.getByte addr = .ok (m.mem addr) := by
  simp only [Memory.getByte, MEM_SIZE]
  rw [if_pos (by omega)]

theorem wadd16_lt (a b : Nat) : wadd16 a b < 65536 := by
  simp only [wadd16]; omega

theorem wsub16_lt (a b : Nat) : wsub16 a b < 65536 := by
  simp only [wsub16]; omega

/-- Shape of `Cpu::push`: it always succeeds, storing the high byte at SP-1
and the low byte at SP-2 and decrementing SP by 2 (wrapping). -/
theorem push_eq (c : Cpu) (v : Nat) :
    c.push v = .ok ⟨{ c.registers with sp := wsub16 c.registers.sp 2 },
      (c.memory.setByte (wsub16 c.registers.sp 1) (v % 65536 / 256)).setByte
        (wsub16 c.registers.sp 2) (v % 256)⟩ := rfl

/-- Shape of `Cpu::pop` on an in-range SP: low byte from SP, high byte from
SP+1, SP incremented by 2 (wrapping). -/
theorem pop_eq (c : Cpu) (hsp : c.registers.sp < 65536) :
    c.pop = .ok (c.memory.mem (wadd16 c.registers.sp 1) * 256 + c.memory.mem c.registers.sp,
      { c with registers := { c.registers with sp := wadd16 c.registers.sp 2 } }) := by
  simp only [Cpu.pop, getByte_ok _ _ hsp, getByte_ok _ _ (wadd16_lt _ _), exbind_okM]

/-! ### C8: stack discipline -/

/-- C8: `push` writes the low byte at SP-2 and the high byte at SP-1 and
sets SP := SP-2; `pop` reads the low byte at SP and the high byte at SP+1
and sets SP := SP+2 without touching memory; and the round trip
`push v` then `pop` returns `v` with SP (and PC) restored. -/
theorem c8_stack_discipline (c : Cpu) (v : Nat) (hv : v < 65536)
    (hsp : c.registers.sp < 65536) :
    (∃ c1, c.push v = .ok c1 ∧
       c1.memory.mem (wsub16 c.registers.sp 2) = v % 256 ∧
       c1.memory.mem (wsub16 c.registers.sp 1) = v / 256 ∧
       c1.registers.sp = wsub16 c.registers.sp 2) ∧
    (∃ c2, c.pop = .ok
        (c.memory.mem (wadd16 c.registers.sp 1) * 256 + c.memory.mem c.registers.sp, c2) ∧
       c2.registers.sp = wadd16 c.registers.sp 2 ∧ c2.memory = c.memory) ∧
    (∃ p, (c.push v).bind Cpu.pop = .ok p ∧ p.1 = v ∧
       p.2.registers.sp = c.registers.sp ∧ p.2.registers.pc = c.registers.pc) := by
  have hne : wsub16 c.registers.sp 1 ≠ wsub16 c.registers.sp 2 := by
    simp only [wsub16]; omega
  refine ⟨⟨_, push_eq c v, ?_, ?_, rfl⟩, ⟨_, pop_eq c hsp, rfl, rfl⟩, ?_⟩
  · simp [Memory.setByte]
  · simp only [Memory.setByte]
    simp [hne, Nat.mod_eq_of_lt hv]
  · rw [push_eq c v, exbind_ok, pop_eq _ (wsub16_lt _ _)]
    have e1 : wadd16 (wsub16 c.registers.sp 2) 1 = wsub16 c.registers.sp 1 := by
      simp only [wadd16, wsub16]; omega
    have e2 : wadd16 (wsub16 c.registers.sp 2) 2 = c.registers.sp := by
      simp only [wadd16, wsub16]; omega
    refine ⟨_, rfl, ?_, ?_, rfl⟩
    · simp only [Memory.setByte, e1]
      simp [hne, Nat.mod_eq_of_lt hv]
      omega
    · simp only [e2]

/-- C8 (witness): the spec scenario — pushing PC = 0x1234 at SP = 0xFFFE,
then popping, restores 0x1234 with SP back at 0xFFFE. -/
theorem c8_stack_discipline_witness :
    (((0x1234 : Nat) < 65536) ∧ ((0xFFFE : Nat) < 65536)) ∧
    ((∃ c1, (⟨⟨0, 0, 0, 0, 0xFFFE, 0x1234⟩, Memory.default⟩ : Cpu).push 0x1234 = .ok c1 ∧
       c1.memory.mem 0xFFFC = 0x34 ∧
       c1.memory.mem 0xFFFD = 0x12 ∧
       c1.registers.sp = 0xFFFC) ∧
     (∃ c2, (⟨⟨0, 0, 0, 0, 0xFFFE, 0x1234⟩, Memory.default⟩ : Cpu).pop = .ok (0, c2) ∧
       c2.registers.sp = 0 ∧ c2.memory = Memory.default) ∧
     (∃ p, ((⟨⟨0, 0, 0, 0, 0xFFFE, 0x1234⟩, Memory.default⟩ : Cpu).push 0x1234).bind Cpu.pop =
         .ok p ∧ p.1 = 0x1234 ∧ p.2.registers.sp = 0xFFFE ∧ p.2.registers.pc = 0x1234)) :=
  ⟨⟨by decide, by decide⟩,
   c8_stack_discipline ⟨⟨0, 0, 0, 0, 0xFFFE, 0x1234⟩, Memory.default⟩ 0x1234
     (by decide) (by decide)⟩

theorem nextByte_ok (c : Cpu) (h : c.registers.pc < 65536) :
    c.nextByte = .ok (c.memory.mem c.registers.pc,
      { c with registers := { c.registers with pc := wadd16 c.registers.pc 1 } }) := by
  simp only [Cpu.nextByte, Cpu.next, getByte_ok _ _ h]

theorem imm8_ok (c : Cpu) (h : c.registers.pc < 65536) :
    c.imm8 = .ok (c.memory.mem c.registers.pc,
      { c with registers := { c.registers with pc := wadd16 c.registers.pc 1 } }) :=
  nextByte_ok c h

theorem imm16_ok (c : Cpu) (h : c.registers.pc < 65536) :
    c.imm16 = .ok (c.memory.mem c.registers.pc +
        256 * c.memory.mem (wadd16 c.registers.pc 1),
      { c with registers := { c.registers with
          pc := wadd16 (wadd16 c.registers.pc 1) 1 } }) := by
  simp only [Cpu.imm16, nextByte_ok, exbind_okM, wadd16_lt, h]

theorem setU16_ok (m : Memory) (addr v : Nat) (h : addr + 1 < 65536) :
    m.setU16 addr v = .ok ((m.setByte addr (v % 256)).setByte (addr + 1) (v / 256 % 256)) := by
  simp only [Memory.setU16]
  rw [if_pos h]

/-- Shape of `Cpu::push_stack_pc`: it succeeds unless the decremented SP is
0xFFFF (i.e. the original SP was 1), in which case `set_u16` panics. -/
theorem pushStackPc_eq (c : Cpu) :
    c.pushStackPc = if wsub16 c.registers.sp 2 + 1 < 65536 then
      .ok ⟨{ c.registers with sp := wsub16 c.registers.sp 2 },
        (c.memory.setByte (wsub16 c.registers.sp 2) (c.registers.pc % 256)).setByte
          (wsub16 c.registers.sp 2 + 1) (c.registers.pc / 256 % 256)⟩
    else .error .panicked := by
  simp only [Cpu.pushStackPc, Memory.setU16]
  split
  · rw [exbind_okM]
  · rw [exbind_errM]

/-! ### C4: conditional control-flow cycle differentials -/

/-- C4: for every condition code and every flag state, each conditional
control-flow instruction reports a strictly larger cycle count when the
condition is met: JrCondImm8 3 vs 2, JpCondImm16 4 vs 3, RetCond 5 vs 2,
CallCondImm16 6 vs 3 (the not-taken counts being the baseline
`Instruction::cycles` values). -/
theorem c4_conditional_cycle_differential (c : Cpu) (cond : Cond)
    (hpc : c.registers.pc < 65536) (hsp : c.registers.sp < 65536)
    (hsp1 : c.registers.sp ≠ 1) :
    (∃ c', execInstruction 0x20 (.jrCondImm8 cond) c =
        .ok (.Cycles (if c.condMet cond then 3 else 2), c')) ∧
    (∃ c', execInstruction 0xC2 (.jpCondImm16 cond) c =
        .ok (.Cycles (if c.condMet cond then 4 else 3), c')) ∧
    (∃ c', execInstruction 0xC0 (.retCond cond) c =
        .ok (.Cycles (if c.condMet cond then 5 else 2), c')) ∧
    (∃ c', execInstruction 0xC4 (.callCondImm16 cond) c =
        .ok (.Cycles (if c.condMet cond then 6 else 3), c')) ∧
    Instruction.cycles (.jrCondImm8 cond) = 2 ∧
    Instruction.cycles (.jpCondImm16 cond) = 3 ∧
    Instruction.cycles (.retCond cond) = 2 ∧
    Instruction.cycles (.callCondImm16 cond) = 3 := by
  refine ⟨?_, ?_, ?_, ?_, ?_, ?_, ?_, ?_⟩
  · cases cond <;>
      (simp only [execInstruction, Cpu.imm8, nextByte_ok c hpc, exbind_okM,
        Cpu.condMet, Registers.zFlg, Registers.cFlg]
       split <;> exact ⟨_, rfl⟩)
  · cases cond <;>
      (simp only [execInstruction, imm16_ok c hpc, exbind_okM,
        Cpu.condMet, Registers.zFlg, Registers.cFlg]
       split <;> exact ⟨_, rfl⟩)
  · cases cond <;>
      (simp only [execInstruction, pop_eq c hsp, exbind_okM,
        Cpu.condMet, Registers.zFlg, Registers.cFlg]
       split <;> exact ⟨_, rfl⟩)
  · cases cond <;>
      (simp only [execInstruction, imm16_ok c hpc, exbind_okM,
        Cpu.condMet, Registers.zFlg, Registers.cFlg, pushStackPc_eq]
       split
       · split
         · exact ⟨_, by rw [exbind_okM]⟩
         · rename_i hcond
           exact absurd (by simp only [wsub16]; omega) hcond
       · exact ⟨_, rfl⟩)
  · cases cond <;> rfl
  · cases cond <;> rfl
  · cases cond <;> rfl
  · cases cond <;> rfl

/-- C4 (witness): at the all-zero CPU (Z=0, C=0) with condition NZ, the
taken counts 3/4/5/6 are reported. -/
theorem c4_conditional_cycle_differential_witness :
    (Cpu.default.registers.pc < 65536 ∧ Cpu.default.registers.sp < 65536 ∧
      Cpu.default.registers.sp ≠ 1) ∧
    ((∃ c', execInstruction 0x20 (.jrCondImm8 .NZ) Cpu.default = .ok (.Cycles 3, c')) ∧
     (∃ c', execInstruction 0xC2 (.jpCondImm16 .NZ) Cpu.default = .ok (.Cycles 4, c')) ∧
     (∃ c', execInstruction 0xC0 (.retCond .NZ) Cpu.default = .ok (.Cycles 5, c')) ∧
     (∃ c', execInstruction 0xC4 (.callCondImm16 .NZ) Cpu.default = .ok (.Cycles 6, c')) ∧
     Instruction.cycles (.jrCondImm8 .NZ) = 2 ∧
     Instruction.cycles (.jpCondImm16 .NZ) = 3 ∧
     Instruction.cycles (.retCond .NZ) = 2 ∧
     Instruction.cycles (.callCondImm16 .NZ) = 3) :=
  ⟨⟨by decide, by decide, by decide⟩,
   c4_conditional_cycle_differential Cpu.default .NZ (by decide) (by decide) (by decide)⟩

theorem tlbs_zero : ∀ x < 256, (toLowestBitSet x = 0) = (x = 0) := by decide

theorem tlbs_pow : ∀ x < 256, ∀ k < 8, x.testBit k = true →
    (∀ j < k, x.testBit j = false) → toLowestBitSet x = 2 ^ k := by decide

theorem u8ClearBit_spec : ∀ f < 256, ∀ k < 8,
    ((u8SetBit f k false).testBit k = false ∧
     ∀ j < 8, j ≠ k → (u8SetBit f k false).testBit j = f.testBit j) := by decide

/-- Shape of `Memory::interrupt_to_run`: the IF read never goes out of
bounds, so the result is decided by the lowest set bit of `IE & IF`. -/
theorem interruptToRun_eq (m : Memory) :
    m.interruptToRun =
      (if toLowestBitSet (m.mem INTERRUPT_ENABLE &&& m.mem INTERRUPT_FLAG) = 0 then
        .ok (none, m)
      else
        (InterruptType.tryFrom (toLowestBitSet (m.mem INTERRUPT_ENABLE &&& m.mem INTERRUPT_FLAG))).bind
          fun it => .ok (some it, m.setByte INTERRUPT_FLAG
            (u8SetBit (m.mem INTERRUPT_FLAG) it.bit false))) := by
  simp only [Memory.interruptToRun]
  rw [if_pos (show INTERRUPT_FLAG < MEM_SIZE by decide)]
  rfl

/-- Modelled from the spec/claim for comparison: the claimed bit-index to
interrupt-type mapping (VBlank=0, LCD=1, Timer=2, Serial=3, Joypad=4). -/
def specInterruptType : Nat → InterruptType
  | 0 => .VBlank
  | 1 => .LCD
  | 2 => .Timer
  | 3 => .Serial
  | _ => .Joypad

/-- Modelled from the spec/claim for comparison: the claimed dispatch
vectors per bit index (0x40/0x48/0x50/0x56/0x60). -/
def specInterruptVector : Nat → Nat
  | 0 => 0x40
  | 1 => 0x48
  | 2 => 0x50
  | 3 => 0x56
  | _ => 0x60

/-- C5 (amended): for every pair of IE/IF bytes, `interrupt_to_run` returns
`Ok(None)` exactly when `IE & IF = 0`; when the lowest set bit index k of
`IE & IF` is at most 4 it returns `Ok(Some(t))` with `t` the interrupt type
of bit k (VBlank=0 at 0x40, LCD=1 at 0x48, Timer=2 at 0x50, Serial=3 at
0x56, Joypad=4 at 0x60), clearing exactly that IF bit and leaving IE and the
other IF bits unchanged; when the lowest set bit index is 5, 6 or 7 it
returns an error instead. -/
theorem c5_interrupt_priority (m : Memory)
    (hie : m.mem INTERRUPT_ENABLE < 256) (hif : m.mem INTERRUPT_FLAG < 256) :
    (m.interruptToRun = .ok (none, m) ↔
      m.mem INTERRUPT_ENABLE &&& m.mem INTERRUPT_FLAG = 0) ∧
    (∀ k, k < 5 →
      (m.mem INTERRUPT_ENABLE &&& m.mem INTERRUPT_FLAG).testBit k = true →
      (∀ j, j < k → (m.mem INTERRUPT_ENABLE &&& m.mem INTERRUPT_FLAG).testBit j = false) →
      m.interruptToRun = .ok (some (specInterruptType k),
        m.setByte INTERRUPT_FLAG (u8SetBit (m.mem INTERRUPT_FLAG) k false)) ∧
      (specInterruptType k).bit = k ∧
      (specInterruptType k).addr = specInterruptVector k ∧
      (u8SetBit (m.mem INTERRUPT_FLAG) k false).testBit k = false ∧
      (∀ j, j < 8 → j ≠ k →
        (u8SetBit (m.mem INTERRUPT_FLAG) k false).testBit j =
          (m.mem INTERRUPT_FLAG).testBit j)) ∧
    (∀ k, 5 ≤ k → k < 8 →
      (m.mem INTERRUPT_ENABLE &&& m.mem INTERRUPT_FLAG).testBit k = true →
      (∀ j, j < k → (m.mem INTERRUPT_ENABLE &&& m.mem INTERRUPT_FLAG).testBit j = false) →
      m.interruptToRun = .error (.invalidInterruptType (2 ^ k))) := by
  have hland : m.mem INTERRUPT_ENABLE &&& m.mem INTERRUPT_FLAG < 256 :=
    Nat.and_lt_two_pow _ (show m.mem INTERRUPT_FLAG < 2 ^ 8 from hif)
  refine ⟨?_, ?_, ?_⟩
  · constructor
    · intro h
      by_contra h0
      rw [interruptToRun_eq] at h
      rw [if_neg (by rw [tlbs_zero _ hland]; exact h0)] at h
      cases htf : InterruptType.tryFrom
          (toLowestBitSet (m.mem INTERRUPT_ENABLE &&& m.mem INTERRUPT_FLAG)) with
      | error e => rw [htf] at h; simp [Except.bind] at h
      | ok it => rw [htf] at h; simp [Except.bind] at h
    · intro h0
      rw [interruptToRun_eq, h0]
      rfl
  · intro k hk5 hbit hlow
    have hp := tlbs_pow _ hland k (by omega) hbit (fun j hj => hlow j hj)
    have hcb := u8ClearBit_spec (m.mem INTERRUPT_FLAG) hif k (by omega)
    refine ⟨?_, ?_, ?_, hcb.1, fun j hj hjk => hcb.2 j hj hjk⟩
    · rw [interruptToRun_eq, hp]
      interval_cases k <;> rfl
    · interval_cases k <;> rfl
    · interval_cases k <;> rfl
  · intro k h5 h8 hbit hlow
    have hp := tlbs_pow _ hland k (by omega) hbit (fun j hj => hlow j hj)
    rw [interruptToRun_eq, hp]
    interval_cases k <;> rfl

/-- Concrete IE/IF state for the C5 witness: IE = IF = 0x05. -/
def c5mem : Memory := (Memory.default.setByte 0xFFFF 0x05).setByte 0xFF0F 0x05

/-- C5 (witness): with IE = IF = 0x05, the lowest set bit is VBlank (bit 0);
the theorem applies and bit 0 of IF is cleared. -/
theorem c5_interrupt_priority_witness :
    (c5mem.mem INTERRUPT_ENABLE < 256 ∧ c5mem.mem INTERRUPT_FLAG < 256) ∧
    ((c5mem.interruptToRun = .ok (none, c5mem) ↔
      c5mem.mem INTERRUPT_ENABLE &&& c5mem.mem INTERRUPT_FLAG = 0) ∧
    (∀ k, k < 5 →
      (c5mem.mem INTERRUPT_ENABLE &&& c5mem.mem INTERRUPT_FLAG).testBit k = true →
      (∀ j, j < k → (c5mem.mem INTERRUPT_ENABLE &&& c5mem.mem INTERRUPT_FLAG).testBit j = false) →
      c5mem.interruptToRun = .ok (some (specInterruptType k),
        c5mem.setByte INTERRUPT_FLAG (u8SetBit (c5mem.mem INTERRUPT_FLAG) k false)) ∧
      (specInterruptType k).bit = k ∧
      (specInterruptType k).addr = specInterruptVector k ∧
      (u8SetBit (c5mem.mem INTERRUPT_FLAG) k false).testBit k = false ∧
      (∀ j, j < 8 → j ≠ k →
        (u8SetBit (c5mem.mem INTERRUPT_FLAG) k false).testBit j =
          (c5mem.mem INTERRUPT_FLAG).testBit j)) ∧
    (∀ k, 5 ≤ k → k < 8 →
      (c5mem.mem INTERRUPT_ENABLE &&& c5mem.mem INTERRUPT_FLAG).testBit k = true →
      (∀ j, j < k → (c5mem.mem INTERRUPT_ENABLE &&& c5mem.mem INTERRUPT_FLAG).testBit j = false) →
      c5mem.interruptToRun = .error (.invalidInterruptType (2 ^ k)))) :=
  ⟨⟨by decide, by decide⟩, c5_interrupt_priority c5mem (by decide) (by decide)⟩

theorem bindM_ok_inv {α β : Type} {x : Except EmuErr α} {f : α → Except EmuErr β} {b : β}
    (h : (bind x f : Except EmuErr β) = .ok b) : ∃ a, x = .ok a ∧ f a = .ok b := by
  cases x with
  | error e => exact absurd h (by simp [bind, Except.bind])
  | ok a => exact ⟨a, rfl, by simpa [bind, Except.bind] using h⟩

/-- Every extended-set dispatch that succeeds reports a cycle count (never
the prefix-pending status). -/
theorem execPrefixed_not_pfx (i : PrefixedInstruction) (c : Cpu) (s : Status) (c' : Cpu)
    (h : execPrefixedInstruction i c = .ok (s, c')) : s ≠ Status.Pfx := by
  cases i <;>
    (simp only [execPrefixedInstruction, execBitB3R8, execResB3R8, execSetB3R8] at h
     obtain ⟨v, hv, h2⟩ := bindM_ok_inv h
     cases h2
     simp)

/-- `run_16bit_opcode` never returns the prefix-pending status. -/
theorem run16_not_pfx (c : Cpu) (s : Status) (c' : Cpu)
    (h : c.run16bitOpcode = .ok (s, c')) : s ≠ .Pfx := by
  simp only [Cpu.run16bitOpcode] at h
  obtain ⟨⟨b, c1⟩, h1, h2⟩ := bindM_ok_inv h
  obtain ⟨i, h3, h4⟩ := bindM_ok_inv h2
  exact execPrefixed_not_pfx i c1 s c' h4

/-! ### C10: the 0xCB prefix is internal to one call -/

/-- C10: `run_next_instruction` never returns the prefix-pending status to
its caller, and whenever the fetched byte is the 0xCB prefix the very next
byte is executed against the extended opcode table within the same call
(the call reduces to `run_16bit_opcode` on the post-fetch state). -/
theorem c10_prefix_internal (c : Cpu)
    (hpc : c.registers.pc < 65536) (hcb : c.memory.mem c.registers.pc = 0xCB) :
    (∀ (c0 : Cpu) (s : Status) (c' : Cpu),
        c0.runNextInstruction = .ok (s, c') → s ≠ .Pfx) ∧
    c.runNextInstruction = Cpu.run16bitOpcode
      { c with registers := { c.registers with pc := wadd16 c.registers.pc 1 } } := by
  constructor
  · intro c0 s c' h
    simp only [Cpu.runNextInstruction] at h
    obtain ⟨⟨s1, c1⟩, h1, h2⟩ := bindM_ok_inv h
    by_cases hp : Status.Pfx = s1
    · rw [if_pos hp] at h2
      exact run16_not_pfx _ _ _ h2
    · rw [if_neg hp] at h2
      cases h2
      exact fun hs => hp hs.symm
  · simp only [Cpu.runNextInstruction, Cpu.run8bitOpcode, nextByte_ok c hpc, hcb, exbind_okM]
    rw [show Instruction.tryFrom 0xCB = .ok .pfx from rfl, exbind_okM]
    simp only [execInstruction, exbind_okM, if_true]

/-- C10 (witness): with 0xCB at PC = 0, the call chains into the extended
table at PC = 1 and never surfaces the prefix status. -/
theorem c10_prefix_internal_witness :
    ((Cpu.mk Registers.default (Memory.default.setByte 0 0xCB)).registers.pc < 65536 ∧
     (Cpu.mk Registers.default (Memory.default.setByte 0 0xCB)).memory.mem
       (Cpu.mk Registers.default (Memory.default.setByte 0 0xCB)).registers.pc = 0xCB) ∧
    ((∀ (c0 : Cpu) (s : Status) (c' : Cpu),
        c0.runNextInstruction = .ok (s, c') → s ≠ .Pfx) ∧
     (Cpu.mk Registers.default (Memory.default.setByte 0 0xCB)).runNextInstruction =
       Cpu.run16bitOpcode ⟨⟨0, 0, 0, 0, 0, 1⟩, Memory.default.setByte 0 0xCB⟩) :=
  ⟨⟨by decide, by decide⟩,
   c10_prefix_internal (Cpu.mk Registers.default (Memory.default.setByte 0 0xCB))
     (by decide) (by decide)⟩

theorem or_mod16 (x y : Nat) (hy : y % 16 = 0) : (x ||| y) % 16 = x % 16 := by
  apply Nat.eq_of_testBit_eq
  intro i
  have h16 : (16 : Nat) = 2 ^ 4 := by norm_num
  rw [h16, Nat.testBit_mod_two_pow, Nat.testBit_mod_two_pow, Nat.testBit_lor]
  by_cases hi : i < 4
  · have hyb : y.testBit i = false := by
      have h0 := congrArg (fun t => t.testBit i) hy
      simp only [h16, Nat.testBit_mod_two_pow] at h0
      simpa [hi, Nat.testBit] using h0
    simp [hi, hyb]
  · simp [hi]

theorem and_mod16_one (x y : Nat) (hy : y % 16 = 15) : (x &&& y) % 16 = x % 16 := by
  apply Nat.eq_of_testBit_eq
  intro i
  have h16 : (16 : Nat) = 2 ^ 4 := by norm_num
  rw [h16, Nat.testBit_mod_two_pow, Nat.testBit_mod_two_pow, Nat.testBit_land]
  by_cases hi : i < 4
  · have h0 := congrArg (fun t => t.testBit i) hy
    simp only [h16, Nat.testBit_mod_two_pow] at h0
    simp only [hi, decide_True, Bool.true_and] at h0
    rw [h0]
    have hyb : Nat.testBit 15 i = true := by interval_cases i <;> decide
    simp [hi, hyb]
  · simp [hi]

theorem and_mod16_zero (x y : Nat) (hy : y % 16 = 0) : (x &&& y) % 16 = 0 := by
  apply Nat.eq_of_testBit_eq
  intro i
  have h16 : (16 : Nat) = 2 ^ 4 := by norm_num
  rw [h16, Nat.testBit_mod_two_pow, Nat.zero_testBit, Nat.testBit_land]
  by_cases hi : i < 4
  · have hyb : y.testBit i = false := by
      have h0 := congrArg (fun t => t.testBit i) hy
      simp only [h16, Nat.testBit_mod_two_pow] at h0
      simpa [hi, Nat.testBit] using h0
    simp [hi, hyb]
  · simp [hi]

@[simp] theorem u16SetBit4_mod16 (x : Nat) (v : Bool) : u16SetBit x 4 v % 16 = x % 16 := by
  cases v
  · exact and_mod16_one x _ (by decide)
  · exact or_mod16 x _ (by decide)

@[simp] theorem u16SetBit5_mod16 (x : Nat) (v : Bool) : u16SetBit x 5 v % 16 = x % 16 := by
  cases v
  · exact and_mod16_one x _ (by decide)
  · exact or_mod16 x _ (by decide)

@[simp] theorem u16SetBit6_mod16 (x : Nat) (v : Bool) : u16SetBit x 6 v % 16 = x % 16 := by
  cases v
  · exact and_mod16_one x _ (by decide)
  · exact or_mod16 x _ (by decide)

@[simp] theorem u16SetBit7_mod16 (x : Nat) (v : Bool) : u16SetBit x 7 v % 16 = x % 16 := by
  cases v
  · exact and_mod16_one x _ (by decide)
  · exact or_mod16 x _ (by decide)

@[simp] theorem setHigh_mod16 (x v : Nat) : setHigh x v % 16 = x % 16 := by
  unfold setHigh
  rw [or_mod16 _ _ (by rw [Nat.shiftLeft_eq]; omega)]
  exact and_mod16_one x _ (by decide)

@[simp] theorem setZFlg_af_mod16 (r : Registers) (v : Bool) :
    (r.setZFlg v).af % 16 = r.af % 16 := u16SetBit7_mod16 r.af v

@[simp] theorem setNFlg_af_mod16 (r : Registers) (v : Bool) :
    (r.setNFlg v).af % 16 = r.af % 16 := u16SetBit6_mod16 r.af v

@[simp] theorem setHFlg_af_mod16 (r : Registers) (v : Bool) :
    (r.setHFlg v).af % 16 = r.af % 16 := u16SetBit5_mod16 r.af v

@[simp] theorem setCFlg_af_mod16 (r : Registers) (v : Bool) :
    (r.setCFlg v).af % 16 = r.af % 16 := u16SetBit4_mod16 r.af v

@[simp] theorem setA_af_mod16 (r : Registers) (v : Nat) :
    (r.setA v).af % 16 = r.af % 16 := setHigh_mod16 r.af v

@[simp] theorem setR16_af (r : Registers) (reg : R16) (v : Nat) :
    (r.setR16 reg v).af = r.af := by cases reg <;> rfl

@[simp] theorem setR8_af_mod16 (c : Cpu) (r8 : R8) (v : Nat) :
    (c.setR8 r8 v).registers.af % 16 = c.registers.af % 16 := by
  cases r8 <;> simp [Cpu.setR8]

theorem nextByte_af_inv {c : Cpu} {v : Nat} {c1 : Cpu} (h : c.nextByte = .ok (v, c1)) :
    c1.registers.af = c.registers.af := by
  simp only [Cpu.nextByte, Cpu.next, Memory.getByte] at h
  split at h
  case h_1 x heq =>
    cases h
    split at heq
    · cases heq; rfl
    · cases heq
  case h_2 heq =>
    cases h

theorem imm8_af_inv {c : Cpu} {v : Nat} {c1 : Cpu} (h : c.imm8 = .ok (v, c1)) :
    c1.registers.af = c.registers.af := nextByte_af_inv h

theorem imm16_af_inv {c : Cpu} {v : Nat} {c1 : Cpu} (h : c.imm16 = .ok (v, c1)) :
    c1.registers.af = c.registers.af := by
  simp only [Cpu.imm16] at h
  obtain ⟨⟨b1, ca⟩, ha, h⟩ := bindM_ok_inv h
  obtain ⟨⟨b2, cb⟩, hb, h⟩ := bindM_ok_inv h
  cases h
  rw [nextByte_af_inv hb, nextByte_af_inv ha]

theorem pop_af_inv {c : Cpu} {v : Nat} {c1 : Cpu} (h : c.pop = .ok (v, c1)) :
    c1.registers.af = c.registers.af := by
  simp only [Cpu.pop] at h
  obtain ⟨a, ha, h⟩ := bindM_ok_inv h
  obtain ⟨b, hb, h⟩ := bindM_ok_inv h
  cases h
  rfl

theorem push_af_inv {c : Cpu} {v : Nat} {c1 : Cpu} (h : c.push v = .ok c1) :
    c1.registers.af = c.registers.af := by
  rw [push_eq] at h
  cases h
  rfl

theorem pushStackPc_af_inv {c : Cpu} {c1 : Cpu} (h : c.pushStackPc = .ok c1) :
    c1.registers.af = c.registers.af := by
  rw [pushStackPc_eq] at h
  split at h
  · cases h; rfl
  · cases h

theorem getR16mem_af_inv {r : Registers} {reg : R16Mem} {addr : Nat} {r1 : Registers}
    (h : r.getR16mem reg = .ok (addr, r1)) : r1.af = r.af := by
  cases reg <;> simp only [Registers.getR16mem] at h
  · cases h; rfl
  · cases h; rfl
  · split at h
    · cases h; rfl
    · cases h
  · split at h
    · cases h
    · cases h; rfl

theorem execInstruction_af (b : Nat) (i : Instruction) (c : Cpu) (s : Status) (c' : Cpu)
    (h : execInstruction b i c = .ok (s, c')) (hc : c.registers.af % 16 = 0) :
    c'.registers.af % 16 = 0 := by
  cases i
  case nop => simp only [execInstruction] at h; cases h; simpa using hc
  case halt => simp only [execInstruction] at h; cases h
  case di => simp only [execInstruction] at h; cases h
  case ei => simp only [execInstruction] at h; cases h
  case ldR16Imm16 reg =>
    simp only [execInstruction] at h
    obtain ⟨⟨v, c1⟩, ha, h⟩ := bindM_ok_inv h
    cases h
    simpa [imm16_af_inv ha] using hc
  case ldR16memA reg =>
    simp only [execInstruction] at h
    obtain ⟨⟨addr, r1⟩, ha, h⟩ := bindM_ok_inv h
    cases h
    simpa [getR16mem_af_inv ha] using hc
  case ldAR16mem reg =>
    simp only [execInstruction] at h
    obtain ⟨⟨addr, r1⟩, ha, h⟩ := bindM_ok_inv h
    obtain ⟨d, hb, h⟩ := bindM_ok_inv h
    cases h
    simpa [getR16mem_af_inv ha] using hc
  case ldImm16Sp =>
    simp only [execInstruction] at h
    obtain ⟨⟨addr, c1⟩, ha, h⟩ := bindM_ok_inv h
    split at h
    · cases h; simpa [imm16_af_inv ha] using hc
    · cases h
  case incR16 reg => simp only [execInstruction] at h; cases h; simpa using hc
  case decR16 reg => simp only [execInstruction] at h; cases h; simpa using hc
  case addHlR16 reg => simp only [execInstruction] at h; cases h; simpa using hc
  case incR8 reg =>
    simp only [execInstruction] at h
    obtain ⟨v, ha, h⟩ := bindM_ok_inv h
    cases h
    simpa using hc
  case decR8 reg =>
    simp only [execInstruction] at h
    obtain ⟨v, ha, h⟩ := bindM_ok_inv h
    cases h
    simpa using hc
  case ldR8Imm8 reg =>
    simp only [execInstruction] at h
    obtain ⟨⟨v, c1⟩, ha, h⟩ := bindM_ok_inv h
    cases h
    simpa [imm8_af_inv ha] using hc
  case rlca => simp only [execInstruction] at h; cases h; simpa using hc
  case rrca => simp only [execInstruction] at h; cases h; simpa using hc
  case rla => simp only [execInstruction] at h; cases h; simpa using hc
  case rra => simp only [execInstruction] at h; cases h; simpa using hc
  case daa => simp only [execInstruction] at h; cases h; simpa using hc
  case cpl => simp only [execInstruction] at h; cases h; simpa using hc
  case scf => simp only [execInstruction] at h; cases h; simpa using hc
  case ccf => simp only [execInstruction] at h; cases h; simpa using hc
  case jrImm8 =>
    simp only [execInstruction] at h
    obtain ⟨⟨v, c1⟩, ha, h⟩ := bindM_ok_inv h
    cases h
    simpa [imm8_af_inv ha] using hc
  case jrCondImm8 cond =>
    simp only [execInstruction] at h
    obtain ⟨⟨v, c1⟩, ha, h⟩ := bindM_ok_inv h
    split at h <;> (cases h; simpa [imm8_af_inv ha] using hc)
  case ldR8R8 src dst =>
    simp only [execInstruction] at h
    split at h
    · obtain ⟨v, ha, h⟩ := bindM_ok_inv h
      cases h
      simpa using hc
    · cases h; simpa using hc
  case addAR8 reg carry =>
    simp only [execInstruction] at h
    obtain ⟨v, ha, h⟩ := bindM_ok_inv h
    cases h
    simpa using hc
  case subAR8 reg carry =>
    simp only [execInstruction] at h
    obtain ⟨v, ha, h⟩ := bindM_ok_inv h
    cases h
    simpa using hc
  case andAR8 reg =>
    simp only [execInstruction] at h
    obtain ⟨v, ha, h⟩ := bindM_ok_inv h
    cases h
    simpa using hc
  case xorAR8 reg =>
    simp only [execInstruction] at h
    obtain ⟨v, ha, h⟩ := bindM_ok_inv h
    cases h
    simpa using hc
  case orAR8 reg =>
    simp only [execInstruction] at h
    obtain ⟨v, ha, h⟩ := bindM_ok_inv h
    cases h
    simpa using hc
  case cpAR8 reg =>
    simp only [execInstruction] at h
    obtain ⟨v, ha, h⟩ := bindM_ok_inv h
    cases h
    simpa using hc
  case addAImm8 carry =>
    simp only [execInstruction] at h
    obtain ⟨⟨v, c1⟩, ha, h⟩ := bindM_ok_inv h
    cases h
    simpa [imm8_af_inv ha] using hc
  case subAImm8 carry =>
    simp only [execInstruction] at h
    obtain ⟨⟨v, c1⟩, ha, h⟩ := bindM_ok_inv h
    cases h
    simpa [imm8_af_inv ha] using hc
  case andAImm8 =>
    simp only [execInstruction] at h
    obtain ⟨⟨v, c1⟩, ha, h⟩ := bindM_ok_inv h
    cases h
    simpa [imm8_af_inv ha] using hc
  case xorAImm8 =>
    simp only [execInstruction] at h
    obtain ⟨⟨v, c1⟩, ha, h⟩ := bindM_ok_inv h
    cases h
    simpa [imm8_af_inv ha] using hc
  case orAImm8 =>
    simp only [execInstruction] at h
    obtain ⟨⟨v, c1⟩, ha, h⟩ := bindM_ok_inv h
    cases h
    simpa [imm8_af_inv ha] using hc
  case cpAImm8 =>
    simp only [execInstruction] at h
    obtain ⟨⟨v, c1⟩, ha, h⟩ := bindM_ok_inv h
    cases h
    simpa [imm8_af_inv ha] using hc
  case retCond cond =>
    simp only [execInstruction] at h
    split at h
    · obtain ⟨⟨v, c1⟩, ha, h⟩ := bindM_ok_inv h
      cases h
      simpa [pop_af_inv ha] using hc
    · cases h; simpa using hc
  case ret =>
    simp only [execInstruction] at h
    obtain ⟨⟨v, c1⟩, ha, h⟩ := bindM_ok_inv h
    cases h
    simpa [pop_af_inv ha] using hc
  case reti =>
    simp only [execInstruction] at h
    obtain ⟨⟨v, c1⟩, ha, h⟩ := bindM_ok_inv h
    cases h
    simpa [pop_af_inv ha] using hc
  case jpCondImm16 cond =>
    simp only [execInstruction] at h
    obtain ⟨⟨v, c1⟩, ha, h⟩ := bindM_ok_inv h
    split at h <;> (cases h; simpa [imm16_af_inv ha] using hc)
  case jpImm16 =>
    simp only [execInstruction] at h
    obtain ⟨⟨v, c1⟩, ha, h⟩ := bindM_ok_inv h
    cases h
    simpa [imm16_af_inv ha] using hc
  case jpHl => simp only [execInstruction] at h; cases h; simpa using hc
  case callCondImm16 cond =>
    simp only [execInstruction] at h
    obtain ⟨⟨v, c1⟩, ha, h⟩ := bindM_ok_inv h
    split at h
    · obtain ⟨c2, hb, h⟩ := bindM_ok_inv h
      cases h
      simpa [pushStackPc_af_inv hb, imm16_af_inv ha] using hc
    · cases h; simpa [imm16_af_inv ha] using hc
  case callImm16 =>
    simp only [execInstruction] at h
    obtain ⟨⟨v, c1⟩, ha, h⟩ := bindM_ok_inv h
    obtain ⟨c2, hb, h⟩ := bindM_ok_inv h
    cases h
    simpa [pushStackPc_af_inv hb, imm16_af_inv ha] using hc
  case rstTgt3 t =>
    simp only [execInstruction] at h
    obtain ⟨c1, ha, h⟩ := bindM_ok_inv h
    cases h
    simpa [pushStackPc_af_inv ha] using hc
  case popR16stk reg =>
    simp only [execInstruction] at h
    obtain ⟨⟨v, c1⟩, ha, h⟩ := bindM_ok_inv h
    cases h
    cases reg
    case BC => simpa [Registers.setR16stk, pop_af_inv ha] using hc
    case DE => simpa [Registers.setR16stk, pop_af_inv ha] using hc
    case HL => simpa [Registers.setR16stk, pop_af_inv ha] using hc
    case AF =>
      simp only [Registers.setR16stk]
      exact and_mod16_zero _ _ (by decide)
  case pushR16stk reg =>
    simp only [execInstruction] at h
    obtain ⟨c1, ha, h⟩ := bindM_ok_inv h
    cases h
    simpa [push_af_inv ha] using hc
  case pfx => simp only [execInstruction] at h; cases h; simpa using hc
  case ldhCA => simp only [execInstruction] at h; cases h; simpa using hc
  case ldhImm8A =>
    simp only [execInstruction] at h
    obtain ⟨⟨v, c1⟩, ha, h⟩ := bindM_ok_inv h
    cases h
    simpa [imm8_af_inv ha] using hc
  case ldImm16A =>
    simp only [execInstruction] at h
    obtain ⟨⟨v, c1⟩, ha, h⟩ := bindM_ok_inv h
    cases h
    simpa [imm16_af_inv ha] using hc
  case ldhAC =>
    simp only [execInstruction] at h
    obtain ⟨v, ha, h⟩ := bindM_ok_inv h
    cases h
    simpa using hc
  case ldhAImm8 =>
    simp only [execInstruction] at h
    obtain ⟨⟨v, c1⟩, ha, h⟩ := bindM_ok_inv h
    obtain ⟨d, hb, h⟩ := bindM_ok_inv h
    cases h
    simpa [imm8_af_inv ha] using hc
  case ldAImm16 =>
    simp only [execInstruction] at h
    obtain ⟨⟨v, c1⟩, ha, h⟩ := bindM_ok_inv h
    obtain ⟨d, hb, h⟩ := bindM_ok_inv h
    cases h
    simpa [imm16_af_inv ha] using hc
  case addSpImm8 =>
    simp only [execInstruction] at h
    obtain ⟨⟨v, c1⟩, ha, h⟩ := bindM_ok_inv h
    cases h
    simpa [imm8_af_inv ha] using hc
  case ldHlSpImm8 =>
    simp only [execInstruction] at h
    obtain ⟨⟨v, c1⟩, ha, h⟩ := bindM_ok_inv h
    cases h
    simpa [imm8_af_inv ha] using hc
  case ldSpHl => simp only [execInstruction] at h; cases h; simpa using hc

theorem execPrefixed_af (i : PrefixedInstruction) (c : Cpu) (s : Status) (c' : Cpu)
    (h : execPrefixedInstruction i c = .ok (s, c')) (hc : c.registers.af % 16 = 0) :
    c'.registers.af % 16 = 0 := by
  cases i <;>
    (simp only [execPrefixedInstruction, execBitB3R8, execResB3R8, execSetB3R8] at h
     obtain ⟨v, hv, h⟩ := bindM_ok_inv h
     cases h
     first
       | simpa using hc
       | (obtain ⟨w, hw, hv⟩ := bindM_ok_inv hv
          cases hv
          simpa using hc))

theorem run8_af (c : Cpu) (s : Status) (c1 : Cpu) (h : c.run8bitOpcode = .ok (s, c1))
    (hc : c.registers.af % 16 = 0) : c1.registers.af % 16 = 0 := by
  simp only [Cpu.run8bitOpcode] at h
  obtain ⟨⟨b, ca⟩, ha, h⟩ := bindM_ok_inv h
  obtain ⟨i, hi, h⟩ := bindM_ok_inv h
  exact execInstruction_af b i ca s c1 h (by rw [nextByte_af_inv ha]; exact hc)

theorem run16_af (c : Cpu) (s : Status) (c1 : Cpu) (h : c.run16bitOpcode = .ok (s, c1))
    (hc : c.registers.af % 16 = 0) : c1.registers.af % 16 = 0 := by
  simp only [Cpu.run16bitOpcode] at h
  obtain ⟨⟨b, ca⟩, ha, h⟩ := bindM_ok_inv h
  obtain ⟨i, hi, h⟩ := bindM_ok_inv h
  exact execPrefixed_af i ca s c1 h (by rw [nextByte_af_inv ha]; exact hc)

/-! ### C1: the flag-nibble invariant -/

/-- C1: for every CPU state whose F low nibble is zero, after any
instruction executed by `run_next_instruction` (8-bit or 0xCB-prefixed,
including PopR16stk into AF) the low 4 bits of the F register are still 0. -/
theorem c1_flag_nibble (c : Cpu) (hf : c.registers.af % 16 = 0) :
    ∀ s c', c.runNextInstruction = .ok (s, c') → c'.registers.af % 16 = 0 := by
  intro s c' h
  simp only [Cpu.runNextInstruction] at h
  obtain ⟨⟨s1, c1⟩, h1, h⟩ := bindM_ok_inv h
  have hc1 : c1.registers.af % 16 = 0 := run8_af c s1 c1 h1 hf
  split at h
  · exact run16_af c1 s c' h hc1
  · cases h; exact hc1

/-- C1 (witness): the invariant instantiated at the all-zero CPU. -/
theorem c1_flag_nibble_witness :
    Cpu.default.registers.af % 16 = 0 ∧
    (∀ s c', Cpu.default.runNextInstruction = .ok (s, c') →
      c'.registers.af % 16 = 0) :=
  ⟨by decide, c1_flag_nibble Cpu.default (by decide)⟩

/-- Helper for C3: `Cpu::get_r8` succeeds on every register selector once
HL is a valid address (the only fallible case is the memory read at HL). -/
theorem getR8_isOk (c : Cpu) (reg : R8) (hhl : c.registers.hl < 65536) :
    ∃ v, c.getR8 reg = .ok v := by
  cases reg <;> first
    | exact ⟨_, rfl⟩
    | exact ⟨_, getByte_ok _ _ hhl⟩

/-- C3 (amended): for every opcode byte `b` that decodes to an instruction
`i`, dispatch on `i` in a well-formed CPU state either returns Ok (a cycle
count or Break status) or fails with the debug-build overflow panic of a
checked u16 addition in a corner state (`hl` at the wrap boundary during
HLI/HLD, `addr + 1` at 0xFFFF in LdImm16Sp, SP wrap during push) -- never
an "unimplemented instruction" error -- EXCEPT for Halt, Di and Ei, which
decode successfully (0x76, 0xF3, 0xFB) but always fall through to the
catch-all `bail!` and return the unimplemented-instruction error, so HALT
yields no observable halted status. -/
theorem c3_dispatch_total (b : Nat) (i : Instruction) (c : Cpu)
    (hdec : Instruction.tryFrom b = .ok i)
    (hpc : c.registers.pc < 65536) (hsp : c.registers.sp < 65536)
    (hbc : c.registers.bc < 65536) (hde : c.registers.de < 65536)
    (hhl : c.registers.hl < 65536) (hmem : ∀ a, c.memory.mem a < 256) :
    (i ≠ .halt → i ≠ .di → i ≠ .ei →
      (resultErr (execInstruction b i c) = none ∨
        resultErr (execInstruction b i c) = some .panicked)) ∧
    ((i = .halt ∨ i = .di ∨ i = .ei) →
      resultErr (execInstruction b i c) = some (.unimplementedInstruction b)) := by
  constructor
  · intro hh hd he
    cases i
    case halt => exact absurd rfl hh
    case di => exact absurd rfl hd
    case ei => exact absurd rfl he
    case nop => first | exact Or.inl rfl | exact Or.inl trivial
    case ldR16Imm16 reg =>
      simp only [execInstruction, imm16_ok c hpc, exbind_okM, resultErr]
      first | exact Or.inl rfl | exact Or.inl trivial
    case ldR16memA reg =>
      cases reg
      case BC => (simp only [execInstruction, Registers.getR16mem, exbind_okM, resultErr]; first | exact Or.inl rfl | exact Or.inl trivial)
      case DE => (simp only [execInstruction, Registers.getR16mem, exbind_okM, resultErr]; first | exact Or.inl rfl | exact Or.inl trivial)
      case HLI =>
        simp only [execInstruction, Registers.getR16mem]
        split
        · (rw [exbind_okM]; first | exact Or.inl rfl | exact Or.inl trivial)
        · (rw [exbind_errM]; first | exact Or.inr rfl | exact Or.inr trivial)
      case HLD =>
        simp only [execInstruction, Registers.getR16mem]
        split
        · (rw [exbind_errM]; first | exact Or.inr rfl | exact Or.inr trivial)
        · (rw [exbind_okM]; first | exact Or.inl rfl | exact Or.inl trivial)
    case ldAR16mem reg =>
      cases reg
      case BC =>
        simp only [execInstruction, Registers.getR16mem, exbind_okM,
          getByte_ok _ _ hbc, resultErr]
        first | exact Or.inl rfl | exact Or.inl trivial
      case DE =>
        simp only [execInstruction, Registers.getR16mem, exbind_okM,
          getByte_ok _ _ hde, resultErr]
        first | exact Or.inl rfl | exact Or.inl trivial
      case HLI =>
        simp only [execInstruction, Registers.getR16mem]
        split
        · rw [exbind_okM]
          simp only [getByte_ok _ _ hhl, exbind_okM, resultErr]
          first | exact Or.inl rfl | exact Or.inl trivial
        · (rw [exbind_errM]; first | exact Or.inr rfl | exact Or.inr trivial)
      case HLD =>
        simp only [execInstruction, Registers.getR16mem]
        split
        · (rw [exbind_errM]; first | exact Or.inr rfl | exact Or.inr trivial)
        · rw [exbind_okM]
          simp only [getByte_ok _ _ hhl, exbind_okM, resultErr]
          first | exact Or.inl rfl | exact Or.inl trivial
    case ldImm16Sp =>
      simp only [execInstruction, imm16_ok c hpc, exbind_okM]
      split
      · first | exact Or.inl rfl | exact Or.inl trivial
      · first | exact Or.inr rfl | exact Or.inr trivial
    case incR16 reg => first | exact Or.inl rfl | exact Or.inl trivial
    case decR16 reg => first | exact Or.inl rfl | exact Or.inl trivial
    case addHlR16 reg => first | exact Or.inl rfl | exact Or.inl trivial
    case incR8 reg =>
      obtain ⟨v, hv⟩ := getR8_isOk c reg hhl
      simp only [execInstruction, hv, exbind_okM, resultErr]
      first | exact Or.inl rfl | exact Or.inl trivial
    case decR8 reg =>
      obtain ⟨v, hv⟩ := getR8_isOk c reg hhl
      simp only [execInstruction, hv, exbind_okM, resultErr]
      first | exact Or.inl rfl | exact Or.inl trivial
    case ldR8Imm8 reg =>
      simp only [execInstruction, imm8_ok c hpc, exbind_okM, resultErr]
      first | exact Or.inl rfl | exact Or.inl trivial
    case rlca => first | exact Or.inl rfl | exact Or.inl trivial
    case rrca => first | exact Or.inl rfl | exact Or.inl trivial
    case rla => first | exact Or.inl rfl | exact Or.inl trivial
    case rra => first | exact Or.inl rfl | exact Or.inl trivial
    case daa => first | exact Or.inl rfl | exact Or.inl trivial
    case cpl => first | exact Or.inl rfl | exact Or.inl trivial
    case scf => first | exact Or.inl rfl | exact Or.inl trivial
    case ccf => first | exact Or.inl rfl | exact Or.inl trivial
    case jrImm8 =>
      simp only [execInstruction, imm8_ok c hpc, exbind_okM, resultErr]
      first | exact Or.inl rfl | exact Or.inl trivial
    case jrCondImm8 cond =>
      simp only [execInstruction, imm8_ok c hpc, exbind_okM]
      split
      · first | exact Or.inl rfl | exact Or.inl trivial
      · first | exact Or.inl rfl | exact Or.inl trivial
    case ldR8R8 src dst =>
      simp only [execInstruction]
      split
      · obtain ⟨v, hv⟩ := getR8_isOk c src hhl
        simp only [hv, exbind_okM, resultErr]
        first | exact Or.inl rfl | exact Or.inl trivial
      · first | exact Or.inl rfl | exact Or.inl trivial
    case addAR8 reg carry =>
      obtain ⟨v, hv⟩ := getR8_isOk c reg hhl
      simp only [execInstruction, hv, exbind_okM, resultErr]
      first | exact Or.inl rfl | exact Or.inl trivial
    case subAR8 reg carry =>
      obtain ⟨v, hv⟩ := getR8_isOk c reg hhl
      simp only [execInstruction, hv, exbind_okM, resultErr]
      first | exact Or.inl rfl | exact Or.inl trivial
    case andAR8 reg =>
      obtain ⟨v, hv⟩ := getR8_isOk c reg hhl
      simp only [execInstruction, hv, exbind_okM, resultErr]
      first | exact Or.inl rfl | exact Or.inl trivial
    case xorAR8 reg =>
      obtain ⟨v, hv⟩ := getR8_isOk c reg hhl
      simp only [execInstruction, hv, exbind_okM, resultErr]
      first | exact Or.inl rfl | exact Or.inl trivial
    case orAR8 reg =>
      obtain ⟨v, hv⟩ := getR8_isOk c reg hhl
      simp only [execInstruction, hv, exbind_okM, resultErr]
      first | exact Or.inl rfl | exact Or.inl trivial
    case cpAR8 reg =>
      obtain ⟨v, hv⟩ := getR8_isOk c reg hhl
      simp only [execInstruction, hv, exbind_okM, resultErr]
      first | exact Or.inl rfl | exact Or.inl trivial
    case addAImm8 carry =>
      simp only [execInstruction, imm8_ok c hpc, exbind_okM, resultErr]
      first | exact Or.inl rfl | exact Or.inl trivial
    case subAImm8 carry =>
      simp only [execInstruction, imm8_ok c hpc, exbind_okM, resultErr]
      first | exact Or.inl rfl | exact Or.inl trivial
    case andAImm8 =>
      simp only [execInstruction, imm8_ok c hpc, exbind_okM, resultErr]
      first | exact Or.inl rfl | exact Or.inl trivial
    case xorAImm8 =>
      simp only [execInstruction, imm8_ok c hpc, exbind_okM, resultErr]
      first | exact Or.inl rfl | exact Or.inl trivial
    case orAImm8 =>
      simp only [execInstruction, imm8_ok c hpc, exbind_okM, resultErr]
      first | exact Or.inl rfl | exact Or.inl trivial
    case cpAImm8 =>
      simp only [execInstruction, imm8_ok c hpc, exbind_okM, resultErr]
      first | exact Or.inl rfl | exact Or.inl trivial
    case retCond cond =>
      simp only [execInstruction]
      split
      · simp only [pop_eq c hsp, exbind_okM, resultErr]
        first | exact Or.inl rfl | exact Or.inl trivial
      · first | exact Or.inl rfl | exact Or.inl trivial
    case ret =>
      simp only [execInstruction, pop_eq c hsp, exbind_okM, resultErr]
      first | exact Or.inl rfl | exact Or.inl trivial
    case reti =>
      simp only [execInstruction, pop_eq c hsp, exbind_okM, resultErr]
      first | exact Or.inl rfl | exact Or.inl trivial
    case jpCondImm16 cond =>
      simp only [execInstruction, imm16_ok c hpc, exbind_okM]
      split
      · first | exact Or.inl rfl | exact Or.inl trivial
      · first | exact Or.inl rfl | exact Or.inl trivial
    case jpImm16 =>
      simp only [execInstruction, imm16_ok c hpc, exbind_okM, resultErr]
      first | exact Or.inl rfl | exact Or.inl trivial
    case jpHl => first | exact Or.inl rfl | exact Or.inl trivial
    case callCondImm16 cond =>
      simp only [execInstruction, imm16_ok c hpc, exbind_okM, pushStackPc_eq]
      split
      · split
        · (rw [exbind_okM]; first | exact Or.inl rfl | exact Or.inl trivial)
        · (rw [exbind_errM]; first | exact Or.inr rfl | exact Or.inr trivial)
      · first | exact Or.inl rfl | exact Or.inl trivial
    case callImm16 =>
      simp only [execInstruction, imm16_ok c hpc, exbind_okM, pushStackPc_eq]
      split
      · (rw [exbind_okM]; first | exact Or.inl rfl | exact Or.inl trivial)
      · (rw [exbind_errM]; first | exact Or.inr rfl | exact Or.inr trivial)
    case rstTgt3 t =>
      simp only [execInstruction, pushStackPc_eq]
      split
      · (rw [exbind_okM]; first | exact Or.inl rfl | exact Or.inl trivial)
      · (rw [exbind_errM]; first | exact Or.inr rfl | exact Or.inr trivial)
    case popR16stk reg =>
      simp only [execInstruction, pop_eq c hsp, exbind_okM, resultErr]
      first | exact Or.inl rfl | exact Or.inl trivial
    case pushR16stk reg =>
      simp only [execInstruction, push_eq, exbind_okM, resultErr]
      first | exact Or.inl rfl | exact Or.inl trivial
    case pfx => first | exact Or.inl rfl | exact Or.inl trivial
    case ldhCA => first | exact Or.inl rfl | exact Or.inl trivial
    case ldhImm8A =>
      simp only [execInstruction, imm8_ok c hpc, exbind_okM, resultErr]
      first | exact Or.inl rfl | exact Or.inl trivial
    case ldImm16A =>
      simp only [execInstruction, imm16_ok c hpc, exbind_okM, resultErr]
      first | exact Or.inl rfl | exact Or.inl trivial
    case ldhAC =>
      have haddr : 0xFF00 + c.registers.c < 65536 := by
        simp only [Registers.c]; omega
      simp only [execInstruction, getByte_ok _ _ haddr, exbind_okM, resultErr]
      first | exact Or.inl rfl | exact Or.inl trivial
    case ldhAImm8 =>
      have haddr : 0xFF00 + c.memory.mem c.registers.pc < 65536 := by
        have := hmem c.registers.pc; omega
      simp only [execInstruction, imm8_ok c hpc, exbind_okM, getByte_ok _ _ haddr, resultErr]
      first | exact Or.inl rfl | exact Or.inl trivial
    case ldAImm16 =>
      have haddr : c.memory.mem c.registers.pc +
          256 * c.memory.mem (wadd16 c.registers.pc 1) < 65536 := by
        have h1 := hmem c.registers.pc
        have h2 := hmem (wadd16 c.registers.pc 1)
        omega
      simp only [execInstruction, imm16_ok c hpc, exbind_okM, getByte_ok _ _ haddr, resultErr]
      first | exact Or.inl rfl | exact Or.inl trivial
    case addSpImm8 =>
      simp only [execInstruction, imm8_ok c hpc, exbind_okM, resultErr]
      first | exact Or.inl rfl | exact Or.inl trivial
    case ldHlSpImm8 =>
      simp only [execInstruction, imm8_ok c hpc, exbind_okM, resultErr]
      first | exact Or.inl rfl | exact Or.inl trivial
    case ldSpHl => first | exact Or.inl rfl | exact Or.inl trivial
  · rintro (rfl | rfl | rfl) <;> rfl

/-- C3 (witness): the dispatch-totality theorem instantiated at opcode 0x00
(NOP) in the all-zero CPU. -/
theorem c3_dispatch_total_witness :
    Instruction.tryFrom 0x00 = .ok .nop ∧
    (Instruction.nop ≠ .halt → Instruction.nop ≠ .di → Instruction.nop ≠ .ei →
      (resultErr (execInstruction 0x00 .nop Cpu.default) = none ∨
        resultErr (execInstruction 0x00 .nop Cpu.default) = some .panicked)) ∧
    ((Instruction.nop = .halt ∨ Instruction.nop = .di ∨ Instruction.nop = .ei) →
      resultErr (execInstruction 0x00 .nop Cpu.default) =
        some (.unimplementedInstruction 0x00)) :=
  ⟨rfl,
   c3_dispatch_total 0x00 .nop Cpu.default rfl (by decide) (by decide)
     (by decide) (by decide) (by decide)
     (fun _ => by show (0 : Nat) < 256; decide)⟩
